import Mathlib

/-!
# RetroSaga audio core: bit scaler, MIDI channel processor and waveform generator

A shallow embedding of `src/audio/bit_scaler.c`, `src/audio/midi_processing.c` and
`src/audio/waveform_generator.c`.

Machine integers are natural numbers reduced modulo `2^32` (`uint32_t`) or `2^8`
(`uint8_t`) at every place where the C operation can leave the range. Shift counts are
integers, because C promotes the `uint8_t` operands of a count expression to `int`
(`scale_bits - 1` is `-1` when `scale_bits` is `0`).

A `float` or `double` value is the rational number it stands for. In the MIDI processor
and in the sine generator every float operation whose exact result need not be
representable is followed by the rounding of its format (`round_binary32`,
`round_binary64`: to nearest, ties to even). The sawtooth, square and triangle generators
are embedded over an ordered field with exact arithmetic, the reading under which their
range is stated.

A shift whose count lies outside `0..31` has no value fixed by the C language. What the
machine yields for it is a parameter of the model (`ShiftTarget`), so a theorem stated
for every `ShiftTarget` holds whatever the compiled code does there.
-/

namespace RetroSaga

/-! ## Machine arithmetic -/

/-- What the target machine yields for a 32-bit shift whose count is outside `0..31`
(operand and count given); C leaves such a shift undefined. -/
structure ShiftTarget where
  /-- Result of `x << n` for a count `n` outside `0..31`. -/
  shl_oob : Nat → Int → Nat
  /-- Result of `x >> n` for a count `n` outside `0..31`. -/
  shr_oob : Nat → Int → Nat

/-- Targets whose shift instructions use the low five bits of the count (the `shl`/`shr`
of x86-64, the register forms of `lsl`/`lsr` on AArch64). -/
def mask5_target : ShiftTarget where
  shl_oob := fun x n => x <<< (n % 32).toNat
  shr_oob := fun x n => x >>> (n % 32).toNat

/-- Targets on which a count of 32 or more shifts every bit out. -/
def flush_target : ShiftTarget where
  shl_oob := fun _ _ => 0
  shr_oob := fun _ _ => 0

/-- C `x << n` on a 32-bit operand, the result kept to 32 bits. For a count in `0..31` the
result is the two's-complement bit pattern, also where the operand is the `int` constant
`1` and the count is 31. -/
def shl32 (t : ShiftTarget) (x : Nat) (n : Int) : Nat :=
  if 0 ≤ n ∧ n < 32 then (x <<< n.toNat) % 2 ^ 32 else t.shl_oob x n % 2 ^ 32

/-- C `x >> n` on an unsigned 32-bit operand. -/
def shr32 (t : ShiftTarget) (x : Nat) (n : Int) : Nat :=
  if 0 ≤ n ∧ n < 32 then x >>> n.toNat else t.shr_oob x n % 2 ^ 32

/-- C `a - b` on `uint32_t`. -/
def sub32 (a b : Nat) : Nat := (a + (2 ^ 32 - b % 2 ^ 32)) % 2 ^ 32

/-- C `a + b` on `uint32_t`. -/
def add32 (a b : Nat) : Nat := (a + b) % 2 ^ 32

/-- Conversion of an `int` to `uint8_t`. -/
def to_u8 (n : Int) : Nat := (n % 256).toNat

/-! ## Floating-point rounding -/

/-- Rounding of a rational to the nearest integer, a tie going to the even one. -/
def round_half_even (q : ℚ) : Int :=
  if q - (Int.floor q : ℚ) < 1 / 2 then Int.floor q
  else if 1 / 2 < q - (Int.floor q : ℚ) then Int.floor q + 1
  else if Int.floor q % 2 = 0 then Int.floor q
  else Int.floor q + 1

/-- The exponent `e` of the binade `2^e ≤ |x| < 2^(e+1)` of `x`, and `emin` (the least
exponent of a normal number of the format) for the smaller `x`, the subnormal range. -/
def float_exponent (emin : Int) (x : ℚ) : Int := max (Int.log 2 |x|) emin

/-- Rounding of an exact result to the binary floating-point format with `p` significant
bits and least normal exponent `emin`, to nearest with ties to even: the multiple of the
spacing `2^(e - (p - 1))` of the binade of `x` that is nearest to `x`. Results too large for
the format (overflow to infinity) are outside the model. -/
def float_round (p : Nat) (emin : Int) (x : ℚ) : ℚ :=
  if x = 0 then 0
  else
    (round_half_even (x / (2 : ℚ) ^ (float_exponent emin x - ((p : Int) - 1))) : ℚ)
      * (2 : ℚ) ^ (float_exponent emin x - ((p : Int) - 1))

/-- Rounding to `float` (IEEE 754 binary32: 24 significant bits, least normal `2^-126`). -/
def round_binary32 (x : ℚ) : ℚ := float_round 24 (-126) x

/-- Rounding to `double` (IEEE 754 binary64: 53 significant bits, least normal
`2^-1022`). -/
def round_binary64 (x : ℚ) : ℚ := float_round 53 (-1022) x

/-! ## `bit_scaler.c` -/

/-- `power_of_2`: `1 << exp`, returned as `uint32_t`. -/
def power_of_2 (t : ShiftTarget) (exp : Nat) : Nat := shl32 t 1 exp

/-- The loop `while (repeat_value != 0) { bit_shifted_value |= repeat_value;
repeat_value >>= repeat_bits; }`. `fuel` bounds the number of iterations; `none` means the
loop was still running when the fuel ran out. -/
def mcm_repeat_loop (t : ShiftTarget) (repeat_bits : Nat) : Nat → Nat → Nat → Option Nat
  | 0, bit_shifted_value, repeat_value =>
    if repeat_value ≠ 0 then none else some bit_shifted_value
  | fuel + 1, bit_shifted_value, repeat_value =>
    if repeat_value ≠ 0 then
      mcm_repeat_loop t repeat_bits fuel (bit_shifted_value ||| repeat_value)
        (shr32 t repeat_value repeat_bits)
    else some bit_shifted_value

/-- `scale_midi_value_min_center_max` (the spec's `scale_mcm`). -/
def scale_midi_value_min_center_max (t : ShiftTarget) (fuel : Nat)
    (src_val src_bits dst_bits : Nat) : Option Nat :=
  if src_bits ≥ dst_bits then
    let scale_bits : Nat := src_bits - dst_bits
    some (shr32 t src_val scale_bits)
  else if src_bits = 1 then
    some (if src_val = 0 then 0 else sub32 (power_of_2 t dst_bits) 1)
  else
    let scale_bits : Nat := dst_bits - src_bits
    let src_center := power_of_2 t (to_u8 ((src_bits : Int) - 1))
    let bit_shifted_value := shl32 t src_val scale_bits
    if src_val ≤ src_center then some bit_shifted_value
    else
      let repeat_bits := to_u8 ((src_bits : Int) - 1)
      let repeat_mask := sub32 (power_of_2 t repeat_bits) 1
      let repeat_value := src_val &&& repeat_mask
      let repeat_value :=
        if scale_bits > repeat_bits then
          shl32 t repeat_value ((scale_bits : Int) - (repeat_bits : Int))
        else shr32 t repeat_value ((repeat_bits : Int) - (scale_bits : Int))
      mcm_repeat_loop t repeat_bits fuel bit_shifted_value repeat_value

/-- `scale_midi_value_zero_extension` (the spec's `scale_zero_ext`). -/
def scale_midi_value_zero_extension (t : ShiftTarget)
    (src_val src_bits dst_bits : Nat) : Nat :=
  if src_bits ≥ dst_bits then
    let scale_bits : Nat := src_bits - dst_bits
    let half_scale_range := shl32 t 1 ((scale_bits : Int) - 1)
    let shifted := shr32 t (add32 src_val half_scale_range) scale_bits
    let max_value := sub32 (shl32 t 1 dst_bits) 1
    if shifted > max_value then max_value else shifted
  else
    let scale_bits : Nat := dst_bits - src_bits
    shl32 t src_val scale_bits

/-- The downscale rule of `scale_zero_ext` as the specification words it: add half the
discarded range, shift right by `scale_bits`, clamp to `2^dst_bits - 1`, the sum taken as
an exact integer. -/
def zero_ext_downscale_spec (value src_bits dst_bits : Nat) : Nat :=
  min ((value + 2 ^ (src_bits - dst_bits - 1)) / 2 ^ (src_bits - dst_bits))
    (2 ^ dst_bits - 1)

/-! ## `retrosaga_audio.h`: return codes and message kinds -/

def RETROSAGA_SUCCESS : Int := 0
def RETROSAGA_ERROR_NOT_INITIALIZED : Int := -1
def RETROSAGA_ERROR_ALREADY_INITIALIZED : Int := -2
def RETROSAGA_ERROR_INVALID_PARAM : Int := -3

def MIDI_NOTE_OFF : Nat := 0x80
def MIDI_NOTE_ON : Nat := 0x90
def MIDI_CONTROL_CHANGE : Nat := 0xB0
def MIDI_PITCH_BEND : Nat := 0xE0

/-! ## `midi_processing.c` -/

/-- `midi_processor_state_t`. The two arrays of sixteen are functions on `Fin 16`;
`messages_processed` is a `uint32_t`, each `active_channels[i]` a `uint8_t`. A `float`
volume is the rational number the binary32 value stands for. -/
structure midi_processor_state_t where
  initialized : Bool
  messages_processed : Nat
  active_channels : Fin 16 → Nat
  channel_volumes : Fin 16 → ℚ

/-- `static midi_processor_state_t g_midi_state = {0};` the state before any call. -/
def g_midi_state : midi_processor_state_t where
  initialized := false
  messages_processed := 0
  active_channels := fun _ => 0
  channel_volumes := fun _ => 0

/-- `midi_processing_init`: the return code and the state it leaves. -/
def midi_processing_init (g : midi_processor_state_t) : Int × midi_processor_state_t :=
  if g.initialized then (RETROSAGA_ERROR_ALREADY_INITIALIZED, g)
  else
    (RETROSAGA_SUCCESS,
      { initialized := true
        messages_processed := 0
        active_channels := fun _ => 0
        channel_volumes := fun _ => 1 })

/-- What one call of `process_midi_message` produces: the return code, the state it
leaves, and the value of the local `scaled_velocity` when the Note-On branch computed
one. -/
structure midi_call_t where
  code : Int
  state : midi_processor_state_t
  scaled_velocity : Option Nat

/-- `uint8_t channel = status & 0x0F;` as an index into the arrays of sixteen. -/
def midi_channel (status : Nat) : Fin 16 :=
  ⟨status &&& 0x0F, Nat.and_lt_two_pow status (show 0x0F < 2 ^ 4 by norm_num)⟩

/-- The `switch (message_type)` of `process_midi_message`: the state after the selected
case and the scaled velocity if one was computed; `none` when the call of
`scale_midi_value_min_center_max` does not return within `fuel` iterations. What the code
prints is not part of the model; the pitch-bend case only builds a local value to print
and the default case only prints. In the volume case `(float)data2` is exact for a byte,
and the quotient `(float)data2 / 127.0f` is rounded to `float`. -/
def midi_dispatch (t : ShiftTarget) (fuel : Nat) (g : midi_processor_state_t)
    (status data1 data2 : Nat) : Option (midi_processor_state_t × Option Nat) :=
  let channel := midi_channel status
  let message_type := status &&& 0xF0
  if message_type = MIDI_NOTE_ON then
    if data2 > 0 then
      let g1 := { g with
        active_channels :=
          Function.update g.active_channels channel ((g.active_channels channel + 1) % 256) }
      match scale_midi_value_min_center_max t fuel data2 7 16 with
      | none => none
      | some scaled_velocity => some (g1, some scaled_velocity)
    else if g.active_channels channel > 0 then
      some ({ g with
        active_channels :=
          Function.update g.active_channels channel (g.active_channels channel - 1) }, none)
    else some (g, none)
  else if message_type = MIDI_NOTE_OFF then
    if g.active_channels channel > 0 then
      some ({ g with
        active_channels :=
          Function.update g.active_channels channel (g.active_channels channel - 1) }, none)
    else some (g, none)
  else if message_type = MIDI_CONTROL_CHANGE then
    if data1 = 7 then
      some ({ g with
        channel_volumes :=
          Function.update g.channel_volumes channel (round_binary32 ((data2 : ℚ) / 127)) },
        none)
    else some (g, none)
  else if message_type = MIDI_PITCH_BEND then
    some (g, none)
  else some (g, none)

/-- `process_midi_message`. -/
def process_midi_message (t : ShiftTarget) (fuel : Nat) (g : midi_processor_state_t)
    (status data1 data2 : Nat) : Option midi_call_t :=
  if !g.initialized then
    some { code := RETROSAGA_ERROR_NOT_INITIALIZED, state := g, scaled_velocity := none }
  else
    match midi_dispatch t fuel g status data1 data2 with
    | none => none
    | some (g1, scaled_velocity) =>
      some { code := RETROSAGA_SUCCESS
             state := { g1 with messages_processed := (g1.messages_processed + 1) % 2 ^ 32 }
             scaled_velocity := scaled_velocity }

/-- `midi_processing_shutdown`: nothing when not initialized, else `memset` of the whole
state to zero bytes (`false`, `0`, and `0.0f` for each volume). -/
def midi_processing_shutdown (g : midi_processor_state_t) : midi_processor_state_t :=
  if !g.initialized then g else g_midi_state

/-- A caller handing a sequence of messages `(status, data1, data2)` to
`process_midi_message`, one call after the other, whatever code each call returns; the
state after the last call. -/
def process_midi_messages (t : ShiftTarget) (fuel : Nat) :
    midi_processor_state_t → List (Nat × Nat × Nat) → Option midi_processor_state_t
  | g, [] => some g
  | g, (status, data1, data2) :: rest =>
    match process_midi_message t fuel g status data1 data2 with
    | none => none
    | some r => process_midi_messages t fuel r.state rest

/-! ## `waveform_generator.c` -/

def RETROSAGA_SAMPLE_RATE : Nat := 44100

/-- `waveform_generator_state_t`. `F` is the type of the values a `float` stands for; the
sine generator below uses `F = ℚ`. -/
structure waveform_generator_state_t (F : Type) where
  initialized : Bool
  sample_rate : F
  waveforms_generated : Nat

/-- `static waveform_generator_state_t g_waveform_state = {0};` -/
def g_waveform_state (F : Type) [Field F] : waveform_generator_state_t F where
  initialized := false
  sample_rate := 0
  waveforms_generated := 0

/-- `waveform_generator_init`. -/
def waveform_generator_init {F : Type} [Field F] (g : waveform_generator_state_t F) :
    Int × waveform_generator_state_t F :=
  if g.initialized then (RETROSAGA_ERROR_ALREADY_INITIALIZED, g)
  else
    (RETROSAGA_SUCCESS,
      { initialized := true
        sample_rate := (RETROSAGA_SAMPLE_RATE : F)
        waveforms_generated := 0 })

/-- A non-null `float* buffer` argument: `mem i` is the float at `buffer[i]`, and
`capacity` is the number of floats the caller allocated. The callee receives only the
pointer, so no function below reads `capacity`; a write at an offset at or beyond it
leaves the caller's array (undefined in C) and is recorded in `mem` at that offset. -/
structure float_buffer_t (F : Type) where
  capacity : Nat
  mem : Nat → F

/-- The argument handed to `sinf` for sample `i`. `t = (float)i / sample_rate` is a
`float` quotient of the `float` conversion of `i`; `2.0f * M_PI * frequency * t` is
evaluated from left to right in `double`, since `M_PI` is a `double`; the product is
converted to the `float` parameter of `sinf`. -/
def sine_argument (M_PI sample_rate frequency : ℚ) (i : Nat) : ℚ :=
  round_binary32
    (round_binary64
      (round_binary64 (round_binary64 (2 * M_PI) * frequency)
        * round_binary32 (round_binary32 (i : ℚ) / sample_rate)))

/-- `generate_sine_wave`: the loop `for (i = 0; i < samples; i++)` assigning
`buffer[i] = amplitude * sinf(2.0f * M_PI * frequency * t)` with `t = (float)i / sample_rate`,
the product by `amplitude` being a `float` product. The library function `sinf` (from
`float` to `float`) and the value of the constant `M_PI` are parameters. -/
def generate_sine_wave (sinf : ℚ → ℚ) (M_PI : ℚ) (sample_rate : ℚ)
    (frequency amplitude : ℚ) (buffer : float_buffer_t ℚ) (samples : Nat) :
    float_buffer_t ℚ :=
  (List.range samples).foldl
    (fun buf i =>
      { buf with
        mem := Function.update buf.mem i
          (round_binary32 (amplitude * sinf (sine_argument M_PI sample_rate frequency i))) })
    buffer

/-- `generate_waveform`: the return code, the state it leaves and the buffer it leaves;
`buffer = none` is the null pointer. -/
def generate_waveform (sinf : ℚ → ℚ) (M_PI : ℚ)
    (g : waveform_generator_state_t ℚ) (frequency amplitude : ℚ)
    (buffer : Option (float_buffer_t ℚ)) (samples : Nat) :
    Int × waveform_generator_state_t ℚ × Option (float_buffer_t ℚ) :=
  match buffer with
  | none => (RETROSAGA_ERROR_INVALID_PARAM, g, none)
  | some buf =>
    if !g.initialized then (RETROSAGA_ERROR_INVALID_PARAM, g, some buf)
    else
      (RETROSAGA_SUCCESS,
        { g with waveforms_generated := (g.waveforms_generated + 1) % 2 ^ 32 },
        some (generate_sine_wave sinf M_PI g.sample_rate frequency amplitude buf samples))

/-- `waveform_generator_shutdown`. -/
def waveform_generator_shutdown {F : Type} [Field F] (g : waveform_generator_state_t F) :
    waveform_generator_state_t F :=
  if !g.initialized then g else g_waveform_state F

/-! ## `bit_scaler.c`: the function declared in `retrosaga_audio.h` -/

/-- Conversion of a `uint32_t` to `int`: a value of `2^31` or more is outside the range of
`int`, and the result is then the two's-complement reading, the value minus `2^32`. -/
def to_int32 (u : Nat) : Int := if u < 2 ^ 31 then (u : Int) else (u : Int) - 2 ^ 32

/-- `scale_midi_value`: `scale_midi_value_min_center_max` returned as `int`. -/
def scale_midi_value (t : ShiftTarget) (fuel : Nat) (value src_bits dst_bits : Nat) :
    Option Int :=
  match scale_midi_value_min_center_max t fuel value src_bits dst_bits with
  | none => none
  | some r => some (to_int32 r)

/-! ## `waveform_generator.c`: sawtooth, square and triangle -/

/-- The C library function `fmodf(x, y)`: `x - n * y`, where `n` is the quotient `x / y`
with its fractional part cut off (rounded toward zero), in exact arithmetic. The result has
the sign of `x`. -/
def fmodf {F : Type} [LinearOrderedField F] [FloorRing F] (x y : F) : F :=
  x - ((if 0 ≤ x / y then Int.floor (x / y) else Int.ceil (x / y) : Int) : F) * y

/-- The value `generate_sawtooth_wave` assigns at phase `phase`. -/
def sawtooth_value {F : Type} [LinearOrderedField F] (amplitude phase : F) : F :=
  amplitude * (2 * phase - 1)

/-- The value `generate_square_wave` assigns at phase `phase`. -/
def square_value {F : Type} [LinearOrderedField F] (amplitude phase : F) : F :=
  amplitude * (if phase < 1 / 2 then 1 else -1)

/-- The value `generate_triangle_wave` assigns at phase `phase`. -/
def triangle_value {F : Type} [LinearOrderedField F] (amplitude phase : F) : F :=
  amplitude * (if phase < 1 / 2 then 4 * phase - 1 else 3 - 4 * phase)

/-- The phase at sample `i`: `t = i / sample_rate`, `phase = fmodf(frequency * t, 1.0f)`. -/
def wave_phase {F : Type} [LinearOrderedField F] [FloorRing F] (sample_rate frequency : F)
    (i : Nat) : F :=
  fmodf (frequency * ((i : F) / sample_rate)) 1

/-- `generate_sawtooth_wave`. -/
def generate_sawtooth_wave {F : Type} [LinearOrderedField F] [FloorRing F]
    (sample_rate frequency amplitude : F) (buffer : float_buffer_t F) (samples : Nat) :
    float_buffer_t F :=
  (List.range samples).foldl
    (fun buf i =>
      { buf with
        mem := Function.update buf.mem i
          (sawtooth_value amplitude (wave_phase sample_rate frequency i)) })
    buffer

/-- `generate_square_wave`. -/
def generate_square_wave {F : Type} [LinearOrderedField F] [FloorRing F]
    (sample_rate frequency amplitude : F) (buffer : float_buffer_t F) (samples : Nat) :
    float_buffer_t F :=
  (List.range samples).foldl
    (fun buf i =>
      { buf with
        mem := Function.update buf.mem i
          (square_value amplitude (wave_phase sample_rate frequency i)) })
    buffer

/-- `generate_triangle_wave`. -/
def generate_triangle_wave {F : Type} [LinearOrderedField F] [FloorRing F]
    (sample_rate frequency amplitude : F) (buffer : float_buffer_t F) (samples : Nat) :
    float_buffer_t F :=
  (List.range samples).foldl
    (fun buf i =>
      { buf with
        mem := Function.update buf.mem i
          (triangle_value amplitude (wave_phase sample_rate frequency i)) })
    buffer

/-! ## Sample inputs -/

/-- An initialized processor whose message counter holds the largest `uint32_t`. -/
def counter_max_state : midi_processor_state_t where
  initialized := true
  messages_processed := 4294967295
  active_channels := fun _ => 0
  channel_volumes := fun _ => 1

/-- A caller's array of 1024 floats (`RETROSAGA_BUFFER_SIZE`), all zero. -/
def frame_float_buffer : float_buffer_t ℚ where
  capacity := 1024
  mem := fun _ => 0

/-- A caller's array of four floats, all zero. -/
def four_float_buffer : float_buffer_t ℚ where
  capacity := 4
  mem := fun _ => 0

/-- An initialized processor after some traffic (five messages, three notes sounding on
every channel, all volumes at one half), used as a test input. -/
def sample_running_state : midi_processor_state_t where
  initialized := true
  messages_processed := 5
  active_channels := fun _ => 3
  channel_volumes := fun _ => 1 / 2

/-! ## Machine arithmetic: basic facts -/

theorem shl32_nat (t : ShiftTarget) (x : Nat) {n : Nat} (h : n < 32) :
    shl32 t x (n : Int) = (x * 2 ^ n) % 2 ^ 32 := by
  have h1 : (0 : Int) ≤ (n : Int) ∧ (n : Int) < 32 := by omega
  simp only [shl32, if_pos h1, Int.toNat_ofNat, Nat.shiftLeft_eq]

theorem shr32_nat (t : ShiftTarget) (x : Nat) {n : Nat} (h : n < 32) :
    shr32 t x (n : Int) = x / 2 ^ n := by
  have h1 : (0 : Int) ≤ (n : Int) ∧ (n : Int) < 32 := by omega
  simp only [shr32, if_pos h1, Int.toNat_ofNat, Nat.shiftRight_eq_div_pow]

theorem shl32_lt (t : ShiftTarget) (x : Nat) (n : Int) : shl32 t x n < 2 ^ 32 := by
  unfold shl32
  split <;> exact Nat.mod_lt _ (by norm_num)

theorem shr32_lt (t : ShiftTarget) {x : Nat} (n : Int) (hx : x < 2 ^ 32) :
    shr32 t x n < 2 ^ 32 := by
  unfold shr32
  split
  · rw [Nat.shiftRight_eq_div_pow]
    exact lt_of_le_of_lt (Nat.div_le_self _ _) hx
  · exact Nat.mod_lt _ (by norm_num)

theorem sub32_lt (a b : Nat) : sub32 a b < 2 ^ 32 := Nat.mod_lt _ (by norm_num)

theorem add32_lt (a b : Nat) : add32 a b < 2 ^ 32 := Nat.mod_lt _ (by norm_num)

theorem sub32_one {a : Nat} (h0 : 0 < a) (h : a ≤ 2 ^ 32) : sub32 a 1 = a - 1 := by
  unfold sub32
  norm_num at h ⊢
  omega

theorem to_u8_pred {s : Nat} (h1 : 1 ≤ s) (h2 : s ≤ 256) : to_u8 ((s : Int) - 1) = s - 1 := by
  unfold to_u8
  omega

theorem power_of_2_in (t : ShiftTarget) {n : Nat} (h : n < 32) : power_of_2 t n = 2 ^ n := by
  unfold power_of_2
  rw [shl32_nat t 1 h, one_mul]
  exact Nat.mod_eq_of_lt (Nat.pow_lt_pow_right (by norm_num) h)

theorem pow_le_u32 {n : Nat} (h : n ≤ 32) : 2 ^ n ≤ 2 ^ 32 :=
  Nat.pow_le_pow_right (by norm_num) h

/-! ## The repeat loop -/

theorem shr_pos_lt_half {rv k rb : Nat} (hrb : 1 ≤ rb) (hk : rv < 2 ^ (k + 1)) :
    rv / 2 ^ rb < 2 ^ k := by
  have h2 : rv / 2 ^ rb ≤ rv / 2 ^ 1 :=
    Nat.div_le_div_left (Nat.pow_le_pow_right (by norm_num) hrb) (by norm_num)
  have h3 : rv / 2 ^ 1 < 2 ^ k := by
    apply Nat.div_lt_of_lt_mul
    rw [pow_succ] at hk
    omega
  omega

/-- With `1 ≤ repeat_bits ≤ 31` and `repeat_value < 2^k`, `k` iterations are enough: the
loop returns `bit_shifted_value` with some bits below `2^k` set. -/
theorem mcm_repeat_loop_spec (t : ShiftTarget) {rb : Nat} (h1 : 1 ≤ rb) (h2 : rb < 32) :
    ∀ (fuel k bsv rv : Nat), rv < 2 ^ k → k ≤ fuel →
      ∃ x, x < 2 ^ k ∧ mcm_repeat_loop t rb fuel bsv rv = some (bsv ||| x) := by
  intro fuel
  induction fuel with
  | zero =>
    intro k bsv rv hrv hk
    have hk0 : k = 0 := by omega
    subst hk0
    have : rv = 0 := by simpa using hrv
    subst this
    exact ⟨0, by norm_num, by simp [mcm_repeat_loop]⟩
  | succ f ih =>
    intro k bsv rv hrv hk
    by_cases h0 : rv = 0
    · subst h0
      exact ⟨0, Nat.pos_pow_of_pos _ (by norm_num), by simp [mcm_repeat_loop]⟩
    · cases k with
      | zero => exact absurd (by simpa using hrv) h0
      | succ k =>
        have hlt : rv / 2 ^ rb < 2 ^ k := shr_pos_lt_half h1 hrv
        obtain ⟨x, hx, hloop⟩ := ih k (bsv ||| rv) (rv / 2 ^ rb) hlt (by omega)
        refine ⟨rv ||| x, Nat.or_lt_two_pow hrv ?_, ?_⟩
        · exact lt_of_lt_of_le hx (Nat.pow_le_pow_right (by norm_num) (by omega))
        · simp only [mcm_repeat_loop, ne_eq, h0, not_false_eq_true, if_true,
            shr32_nat t rv h2, hloop, Nat.or_assoc]

/-! ## The branches of `scale_midi_value_min_center_max` -/

theorem scale_mcm_down (t : ShiftTarget) (fuel v : Nat) {s d : Nat} (hds : d ≤ s)
    (hs : s ≤ 32) (hd : 1 ≤ d) :
    scale_midi_value_min_center_max t fuel v s d = some (v / 2 ^ (s - d)) := by
  have h : s ≥ d := hds
  simp only [scale_midi_value_min_center_max, if_pos h]
  rw [shr32_nat t v (by omega)]

theorem scale_mcm_one_bit (t : ShiftTarget) (fuel v : Nat) {d : Nat} (hd : 1 < d) :
    scale_midi_value_min_center_max t fuel v 1 d
      = some (if v = 0 then 0 else sub32 (power_of_2 t d) 1) := by
  have h : ¬ (1 ≥ d) := by omega
  simp only [scale_midi_value_min_center_max, if_neg h, if_true]

theorem scale_mcm_low (t : ShiftTarget) (fuel : Nat) {v s d : Nat} (hs : 2 ≤ s)
    (hsd : s < d) (hd : d ≤ 32) (hc : v ≤ 2 ^ (s - 1)) :
    scale_midi_value_min_center_max t fuel v s d = some (v * 2 ^ (d - s)) := by
  have h : ¬ (s ≥ d) := by omega
  have h1 : ¬ (s = 1) := by omega
  have hlt : v * 2 ^ (d - s) < 2 ^ 32 := by
    calc v * 2 ^ (d - s) ≤ 2 ^ (s - 1) * 2 ^ (d - s) := Nat.mul_le_mul_right _ hc
      _ = 2 ^ (d - 1) := by rw [← pow_add, show s - 1 + (d - s) = d - 1 by omega]
      _ < 2 ^ 32 := Nat.pow_lt_pow_right (by norm_num) (by omega)
  simp only [scale_midi_value_min_center_max, if_neg h, if_neg h1,
    to_u8_pred (show 1 ≤ s by omega) (show s ≤ 256 by omega),
    power_of_2_in t (show s - 1 < 32 by omega), if_pos hc,
    shl32_nat t v (show d - s < 32 by omega), Nat.mod_eq_of_lt hlt]

/-- Above the center the function is the repeat loop, entered with the shifted value and
the repeat pattern moved into the vacated bits. -/
theorem scale_mcm_high_unfold (t : ShiftTarget) (fuel : Nat) {v s d : Nat}
    (hs : 2 ≤ s) (hsd : s < d) (hd : d ≤ 32) (hc : 2 ^ (s - 1) < v) :
    scale_midi_value_min_center_max t fuel v s d
      = mcm_repeat_loop t (s - 1) fuel ((v <<< (d - s)) % 2 ^ 32)
          (if d - s > s - 1 then ((v &&& (2 ^ (s - 1) - 1)) <<< (d - s - (s - 1))) % 2 ^ 32
           else (v &&& (2 ^ (s - 1) - 1)) >>> (s - 1 - (d - s))) := by
  have h : ¬ (s ≥ d) := by omega
  have h1 : ¬ (s = 1) := by omega
  have hc2 : ¬ (v ≤ 2 ^ (s - 1)) := by omega
  have hmask : sub32 (2 ^ (s - 1)) 1 = 2 ^ (s - 1) - 1 :=
    sub32_one (Nat.pos_pow_of_pos _ (by norm_num)) (pow_le_u32 (by omega))
  simp only [scale_midi_value_min_center_max, if_neg h, if_neg h1,
    to_u8_pred (show 1 ≤ s by omega) (show s ≤ 256 by omega),
    power_of_2_in t (show s - 1 < 32 by omega), if_neg hc2,
    shl32_nat t v (show d - s < 32 by omega), hmask, Nat.shiftLeft_eq]
  by_cases hgt : d - s > s - 1
  · have e : (((d - s : Nat) : Int) - ((s - 1 : Nat) : Int))
        = (((d - s) - (s - 1) : Nat) : Int) := by omega
    simp only [if_pos hgt]
    rw [e, shl32_nat t _ (by omega)]
  · have e : (((s - 1 : Nat) : Int) - ((d - s : Nat) : Int))
        = (((s - 1) - (d - s) : Nat) : Int) := by omega
    simp only [if_neg hgt]
    rw [e, shr32_nat t _ (by omega), Nat.shiftRight_eq_div_pow]

/-- Above the center, for any `src_val` (in contract or not): the loop returns, and the
result is the shifted value with some of the vacated low bits set. -/
theorem scale_mcm_high_any (t : ShiftTarget) {fuel v s d : Nat} (hf : 32 ≤ fuel)
    (hs : 2 ≤ s) (hsd : s < d) (hd : d ≤ 32) (hc : 2 ^ (s - 1) < v) :
    ∃ x, x < 2 ^ (d - s) ∧
      scale_midi_value_min_center_max t fuel v s d
        = some ((v * 2 ^ (d - s)) % 2 ^ 32 ||| x) := by
  have hrv0 : v &&& (2 ^ (s - 1) - 1) < 2 ^ (s - 1) := by
    rw [Nat.and_pow_two_sub_one_eq_mod]
    exact Nat.mod_lt _ (Nat.pos_pow_of_pos _ (by norm_num))
  rw [scale_mcm_high_unfold t fuel hs hsd hd hc]
  generalize v &&& (2 ^ (s - 1) - 1) = r0 at hrv0
  have hrv : (if d - s > s - 1 then (r0 <<< (d - s - (s - 1))) % 2 ^ 32
      else r0 >>> (s - 1 - (d - s))) < 2 ^ (d - s) := by
    split
    · rename_i hgt
      have : r0 * 2 ^ (d - s - (s - 1)) < 2 ^ (d - s) := by
        calc r0 * 2 ^ (d - s - (s - 1)) < 2 ^ (s - 1) * 2 ^ (d - s - (s - 1)) :=
              Nat.mul_lt_mul_of_pos_right hrv0 (Nat.pos_pow_of_pos _ (by norm_num))
          _ = 2 ^ (d - s) := by
              rw [← pow_add, show s - 1 + (d - s - (s - 1)) = d - s by omega]
      rw [Nat.shiftLeft_eq]
      exact lt_of_le_of_lt (Nat.mod_le _ _) this
    · rename_i hgt
      rw [Nat.shiftRight_eq_div_pow]
      apply Nat.div_lt_of_lt_mul
      rw [← pow_add, show s - 1 - (d - s) + (d - s) = s - 1 by omega]
      exact hrv0
  obtain ⟨x, hx, hloop⟩ := mcm_repeat_loop_spec t (show 1 ≤ s - 1 by omega)
    (show s - 1 < 32 by omega) fuel (d - s) ((v <<< (d - s)) % 2 ^ 32) _ hrv (by omega)
  exact ⟨x, hx, by rw [hloop, Nat.shiftLeft_eq]⟩

theorem shifted_lt_pow {v s d : Nat} (hsd : s ≤ d) (hv : v < 2 ^ s) :
    v * 2 ^ (d - s) < 2 ^ d := by
  calc v * 2 ^ (d - s) < 2 ^ s * 2 ^ (d - s) :=
        Nat.mul_lt_mul_of_pos_right hv (Nat.pos_pow_of_pos _ (by norm_num))
    _ = 2 ^ d := by rw [← pow_add, show s + (d - s) = d by omega]

/-- Above the center and inside the contract: the result is the shifted value plus a fill
below `2^(dst_bits - src_bits)`. -/
theorem scale_mcm_high (t : ShiftTarget) {fuel v s d : Nat} (hf : 32 ≤ fuel) (hs : 2 ≤ s)
    (hsd : s < d) (hd : d ≤ 32) (hv : v < 2 ^ s) (hc : 2 ^ (s - 1) < v) :
    ∃ x, x < 2 ^ (d - s) ∧
      scale_midi_value_min_center_max t fuel v s d = some (v * 2 ^ (d - s) + x) := by
  obtain ⟨x, hx, hres⟩ := scale_mcm_high_any t hf hs hsd hd hc
  have hlt : v * 2 ^ (d - s) < 2 ^ 32 :=
    lt_of_lt_of_le (shifted_lt_pow (le_of_lt hsd) hv) (pow_le_u32 hd)
  refine ⟨x, hx, ?_⟩
  rw [hres, Nat.mod_eq_of_lt hlt, Nat.mul_comm v, Nat.mul_add_lt_is_or hx]

/-- For widths in `1..32` the function returns for every 32-bit `src_val`, given fuel for
32 iterations, and the result is a 32-bit number. -/
theorem scale_mcm_returns (t : ShiftTarget) {fuel v s d : Nat}
    (hf : 32 ≤ fuel) (hs1 : 1 ≤ s) (hs : s ≤ 32) (hd1 : 1 ≤ d) (hd : d ≤ 32)
    (hv : v < 2 ^ 32) :
    ∃ r, scale_midi_value_min_center_max t fuel v s d = some r ∧ r < 2 ^ 32 := by
  by_cases hds : d ≤ s
  · exact ⟨_, scale_mcm_down t fuel v hds hs hd1, lt_of_le_of_lt (Nat.div_le_self _ _) hv⟩
  · by_cases h1 : s = 1
    · subst h1
      refine ⟨_, scale_mcm_one_bit t fuel v (by omega), ?_⟩
      split
      · norm_num
      · exact sub32_lt _ _
    · by_cases hc : v ≤ 2 ^ (s - 1)
      · refine ⟨_, scale_mcm_low t fuel (by omega) (by omega) hd hc, ?_⟩
        calc v * 2 ^ (d - s) ≤ 2 ^ (s - 1) * 2 ^ (d - s) := Nat.mul_le_mul_right _ hc
          _ = 2 ^ (d - 1) := by rw [← pow_add, show s - 1 + (d - s) = d - 1 by omega]
          _ < 2 ^ 32 := Nat.pow_lt_pow_right (by norm_num) (by omega)
      · obtain ⟨x, hx, hres⟩ :=
          scale_mcm_high_any t hf (show 2 ≤ s by omega) (show s < d by omega) hd
            (show 2 ^ (s - 1) < v by omega)
        refine ⟨_, hres, Nat.or_lt_two_pow (Nat.mod_lt _ (by norm_num)) ?_⟩
        exact lt_of_lt_of_le hx (pow_le_u32 (by omega))

/-- More fuel does not change what the loop returns. -/
theorem mcm_repeat_loop_fuel_succ (t : ShiftTarget) (rb : Nat) :
    ∀ (fuel bsv rv r : Nat), mcm_repeat_loop t rb fuel bsv rv = some r →
      mcm_repeat_loop t rb (fuel + 1) bsv rv = some r := by
  intro fuel
  induction fuel with
  | zero =>
    intro bsv rv r h
    by_cases h0 : rv = 0
    · simpa [mcm_repeat_loop, h0] using h
    · simp [mcm_repeat_loop, h0] at h
  | succ f ih =>
    intro bsv rv r h
    by_cases h0 : rv = 0
    · simpa [mcm_repeat_loop, h0] using h
    · rw [mcm_repeat_loop, if_pos h0] at h
      rw [mcm_repeat_loop, if_pos h0]
      exact ih _ _ _ h

theorem mcm_repeat_loop_fuel_mono (t : ShiftTarget) (rb : Nat) {fuel fuel2 : Nat}
    (hle : fuel ≤ fuel2) {bsv rv r : Nat} (h : mcm_repeat_loop t rb fuel bsv rv = some r) :
    mcm_repeat_loop t rb fuel2 bsv rv = some r := by
  induction hle with
  | refl => exact h
  | step _ ih => exact mcm_repeat_loop_fuel_succ t rb _ _ _ _ ih

/-- More fuel does not change what `scale_midi_value_min_center_max` returns. -/
theorem scale_mcm_fuel_mono (t : ShiftTarget) {fuel fuel2 : Nat} (hle : fuel ≤ fuel2)
    {v s d r : Nat} (h : scale_midi_value_min_center_max t fuel v s d = some r) :
    scale_midi_value_min_center_max t fuel2 v s d = some r := by
  unfold scale_midi_value_min_center_max at h ⊢
  by_cases h1 : s ≥ d
  · simpa only [if_pos h1] using h
  · by_cases h2 : s = 1
    · simpa only [if_neg h1, if_pos h2] using h
    · simp only [if_neg h1, if_neg h2] at h ⊢
      by_cases h3 : v ≤ power_of_2 t (to_u8 ((s : Int) - 1))
      · simpa only [if_pos h3] using h
      · simp only [if_neg h3] at h ⊢
        exact mcm_repeat_loop_fuel_mono t _ hle h

/-! ## The pattern fill at the maximum -/

/-- When `repeat_value` has exactly the bits `k - repeat_bits .. k - 1` set, the loop sets
every bit below `k`. -/
theorem mcm_repeat_loop_ones (t : ShiftTarget) {rb : Nat} (h1 : 1 ≤ rb) (h2 : rb < 32) :
    ∀ (fuel k bsv rv : Nat), k ≤ fuel →
      (∀ i, rv.testBit i = decide (k ≤ i + rb ∧ i < k)) →
      mcm_repeat_loop t rb fuel bsv rv = some (bsv ||| (2 ^ k - 1)) := by
  intro fuel
  induction fuel with
  | zero =>
    intro k bsv rv hk hbits
    have hk0 : k = 0 := by omega
    subst hk0
    have hrv : rv = 0 := by
      apply Nat.eq_of_testBit_eq
      intro i
      rw [hbits i]
      simp
    subst hrv
    simp [mcm_repeat_loop]
  | succ f ih =>
    intro k bsv rv hk hbits
    by_cases hk0 : k = 0
    · subst hk0
      have hrv : rv = 0 := by
        apply Nat.eq_of_testBit_eq
        intro i
        rw [hbits i]
        simp
      subst hrv
      simp [mcm_repeat_loop]
    · have hrv : rv ≠ 0 := by
        intro h0
        have := hbits (k - 1)
        rw [h0] at this
        simp at this
        omega
      have hnext : ∀ i, (rv >>> rb).testBit i = decide (k - rb ≤ i + rb ∧ i < k - rb) := by
        intro i
        rw [Nat.testBit_shiftRight, hbits (rb + i)]
        congr 1
        apply propext
        omega
      have hloop := ih (k - rb) (bsv ||| rv) (rv >>> rb) (by omega) hnext
      rw [mcm_repeat_loop, if_pos hrv, shr32_nat t rv h2, ← Nat.shiftRight_eq_div_pow, hloop]
      congr 1
      apply Nat.eq_of_testBit_eq
      intro i
      simp only [Nat.testBit_or, Nat.testBit_two_pow_sub_one, hbits i]
      by_cases hb : bsv.testBit i = true
      · simp [hb]
      · have hbf : bsv.testBit i = false := by simpa using hb
        simp only [hbf, Bool.false_or]
        rw [← Bool.decide_or]
        congr 1
        apply propext
        omega

/-- Maximum maps to maximum in the pattern-fill branch, on every target. -/
theorem scale_mcm_max_high (t : ShiftTarget) {fuel s d : Nat} (hf : 32 ≤ fuel) (hs : 2 ≤ s)
    (hsd : s < d) (hd : d ≤ 32) :
    scale_midi_value_min_center_max t fuel (2 ^ s - 1) s d = some (2 ^ d - 1) := by
  have hpow : 2 ^ s = 2 * 2 ^ (s - 1) := by
    rw [← pow_succ', show s - 1 + 1 = s by omega]
  have hpos : 0 < 2 ^ (s - 1) := Nat.pos_pow_of_pos _ (by norm_num)
  have h2le : 2 ≤ 2 ^ (s - 1) := by
    calc 2 = 2 ^ 1 := by norm_num
      _ ≤ 2 ^ (s - 1) := Nat.pow_le_pow_right (by norm_num) (by omega)
  have hc : 2 ^ (s - 1) < 2 ^ s - 1 := by omega
  have hmask : (2 ^ s - 1) &&& (2 ^ (s - 1) - 1) = 2 ^ (s - 1) - 1 := by
    apply Nat.eq_of_testBit_eq
    intro i
    simp only [Nat.testBit_and, Nat.testBit_two_pow_sub_one]
    rw [← Bool.decide_and]
    congr 1
    apply propext
    omega
  have hshift : ((2 ^ s - 1) <<< (d - s)) % 2 ^ 32 = 2 ^ (d - s) * (2 ^ s - 1) := by
    rw [Nat.shiftLeft_eq, Nat.mul_comm]
    apply Nat.mod_eq_of_lt
    rw [Nat.mul_comm]
    exact lt_of_lt_of_le (shifted_lt_pow (le_of_lt hsd)
      (Nat.sub_lt (Nat.pos_pow_of_pos _ (by norm_num)) (by norm_num))) (pow_le_u32 hd)
  rw [scale_mcm_high_unfold t fuel hs hsd hd hc, hmask, hshift]
  have hbits : ∀ i, (if d - s > s - 1 then ((2 ^ (s - 1) - 1) <<< (d - s - (s - 1))) % 2 ^ 32
      else (2 ^ (s - 1) - 1) >>> (s - 1 - (d - s))).testBit i
        = decide (d - s ≤ i + (s - 1) ∧ i < d - s) := by
    intro i
    split
    · rename_i hgt
      have hlt : (2 ^ (s - 1) - 1) <<< (d - s - (s - 1)) < 2 ^ 32 := by
        rw [Nat.shiftLeft_eq]
        calc (2 ^ (s - 1) - 1) * 2 ^ (d - s - (s - 1))
            < 2 ^ (s - 1) * 2 ^ (d - s - (s - 1)) :=
              Nat.mul_lt_mul_of_pos_right (by omega) (Nat.pos_pow_of_pos _ (by norm_num))
          _ = 2 ^ (d - s) := by
              rw [← pow_add, show s - 1 + (d - s - (s - 1)) = d - s by omega]
          _ ≤ 2 ^ 32 := pow_le_u32 (by omega)
      rw [Nat.mod_eq_of_lt hlt, Nat.testBit_shiftLeft, Nat.testBit_two_pow_sub_one,
        ← Bool.decide_and]
      congr 1
      apply propext
      omega
    · rename_i hgt
      rw [Nat.testBit_shiftRight, Nat.testBit_two_pow_sub_one]
      congr 1
      apply propext
      omega
  rw [mcm_repeat_loop_ones t (show 1 ≤ s - 1 by omega) (show s - 1 < 32 by omega) fuel
    (d - s) _ _ (by omega) hbits]
  congr 1
  have hk : 2 ^ (d - s) - 1 < 2 ^ (d - s) :=
    Nat.sub_lt (Nat.pos_pow_of_pos _ (by norm_num)) (by norm_num)
  rw [← Nat.mul_add_lt_is_or hk, Nat.mul_sub_one, ← pow_add,
    show d - s + s = d by omega]
  have hle : 2 ^ (d - s) ≤ 2 ^ d := Nat.pow_le_pow_right (by norm_num) (by omega)
  have hp : 0 < 2 ^ (d - s) := Nat.pos_pow_of_pos _ (by norm_num)
  omega

/-- Maximum maps to maximum for every `1 ≤ src_bits ≤ dst_bits ≤ 32` other than
`src_bits = 1`, `dst_bits = 32`, on every target. -/
theorem scale_mcm_max_to_max (t : ShiftTarget) {fuel s d : Nat} (hf : 32 ≤ fuel)
    (hs1 : 1 ≤ s) (hsd : s ≤ d) (hd : d ≤ 32) (hne : ¬ (s = 1 ∧ d = 32)) :
    scale_midi_value_min_center_max t fuel (2 ^ s - 1) s d = some (2 ^ d - 1) := by
  by_cases heq : s = d
  · subst heq
    rw [scale_mcm_down t fuel _ (le_refl s) hd hs1]
    simp
  · by_cases h1 : s = 1
    · subst h1
      rw [scale_mcm_one_bit t fuel _ (by omega), power_of_2_in t (show d < 32 by omega),
        sub32_one (Nat.pos_pow_of_pos _ (by norm_num)) (pow_le_u32 hd)]
      simp
    · exact scale_mcm_max_high t hf (by omega) (by omega) hd

/-! ## Claims on `scale_midi_value_min_center_max` -/

/-- C1: for `src_bits` and `dst_bits` in `1..32` and `value < 2^src_bits`, the function
`scale_midi_value_min_center_max` returns (fuel for 32 loop iterations is enough) and its
result is strictly below `2^dst_bits`, in all four branches and on every target. -/
theorem scale_mcm_result_lt_two_pow (t : ShiftTarget) (fuel v s d : Nat) (hf : 32 ≤ fuel)
    (hs1 : 1 ≤ s) (hs : s ≤ 32) (hd1 : 1 ≤ d) (hd : d ≤ 32) (hv : v < 2 ^ s) :
    ∃ r, scale_midi_value_min_center_max t fuel v s d = some r ∧ r < 2 ^ d := by
  by_cases hds : d ≤ s
  · refine ⟨_, scale_mcm_down t fuel v hds hs hd1, ?_⟩
    apply Nat.div_lt_of_lt_mul
    rw [← pow_add, show s - d + d = s by omega]
    exact hv
  · by_cases h1 : s = 1
    · subst h1
      refine ⟨_, scale_mcm_one_bit t fuel v (by omega), ?_⟩
      split
      · exact Nat.pos_pow_of_pos _ (by norm_num)
      · by_cases h32 : d = 32
        · subst h32
          exact sub32_lt _ _
        · rw [power_of_2_in t (show d < 32 by omega),
            sub32_one (Nat.pos_pow_of_pos _ (by norm_num)) (pow_le_u32 hd)]
          exact Nat.sub_lt (Nat.pos_pow_of_pos _ (by norm_num)) (by norm_num)
    · by_cases hc : v ≤ 2 ^ (s - 1)
      · refine ⟨_, scale_mcm_low t fuel (by omega) (by omega) hd hc, ?_⟩
        exact shifted_lt_pow (by omega) hv
      · obtain ⟨x, hx, hres⟩ :=
          scale_mcm_high t hf (show 2 ≤ s by omega) (show s < d by omega) hd hv
            (show 2 ^ (s - 1) < v by omega)
        refine ⟨_, hres, ?_⟩
        have h2 : (v + 1) * 2 ^ (d - s) ≤ 2 ^ s * 2 ^ (d - s) :=
          Nat.mul_le_mul_right _ hv
        rw [← pow_add, show s + (d - s) = d by omega, Nat.add_mul, one_mul] at h2
        omega

theorem scale_mcm_result_lt_two_pow_witness :
    (32 ≤ 32 ∧ 1 ≤ 7 ∧ 7 ≤ 32 ∧ 1 ≤ 16 ∧ 16 ≤ 32 ∧ 100 < 2 ^ 7) ∧
      ∃ r, scale_midi_value_min_center_max mask5_target 32 100 7 16 = some r ∧ r < 2 ^ 16 :=
  ⟨by decide, scale_mcm_result_lt_two_pow mask5_target 32 100 7 16 (by decide) (by decide)
    (by decide) (by decide) (by decide) (by decide)⟩

/-- C2: at `value = 1`, `src_bits = 1`, `dst_bits = 32` the function returns
`power_of_2(32) - 1`, and `1 << 32` has a count outside `0..31`: the result is what the
target yields for that shift, minus one. On a target that takes the count modulo 32 it is
`0`, not the maximum `2^32 - 1`; only a target that shifts every bit out gives the
maximum. -/
theorem scale_mcm_one_bit_to_32 :
    (∀ (t : ShiftTarget) (fuel : Nat), scale_midi_value_min_center_max t fuel 1 1 32
      = some (sub32 (t.shl_oob 1 32 % 2 ^ 32) 1)) ∧
    scale_midi_value_min_center_max mask5_target 32 1 1 32 = some 0 ∧
    scale_midi_value_min_center_max flush_target 32 1 1 32 = some 4294967295 := by
  refine ⟨?_, by decide, by decide⟩
  intro t fuel
  rw [scale_mcm_one_bit t fuel 1 (by decide)]
  simp [power_of_2, shl32]

/-- C3: for `2 ≤ src_bits < dst_bits ≤ 32` and `value ≤ 2^(src_bits-1)` the result is
`value * 2^(dst_bits - src_bits)`; zero maps to zero and the center `2^(src_bits-1)` maps
to the center `2^(dst_bits-1)`. -/
theorem scale_mcm_at_or_below_center (t : ShiftTarget) (fuel v s d : Nat) (hs : 2 ≤ s)
    (hsd : s < d) (hd : d ≤ 32) (hc : v ≤ 2 ^ (s - 1)) :
    scale_midi_value_min_center_max t fuel v s d = some (v * 2 ^ (d - s)) ∧
    scale_midi_value_min_center_max t fuel 0 s d = some 0 ∧
    scale_midi_value_min_center_max t fuel (2 ^ (s - 1)) s d = some (2 ^ (d - 1)) := by
  refine ⟨scale_mcm_low t fuel hs hsd hd hc, ?_, ?_⟩
  · rw [scale_mcm_low t fuel hs hsd hd (Nat.zero_le _), Nat.zero_mul]
  · rw [scale_mcm_low t fuel hs hsd hd (le_refl _), ← pow_add,
      show s - 1 + (d - s) = d - 1 by omega]

theorem scale_mcm_at_or_below_center_witness :
    (2 ≤ 7 ∧ 7 < 16 ∧ 16 ≤ 32 ∧ 64 ≤ 2 ^ (7 - 1)) ∧
      (scale_midi_value_min_center_max mask5_target 32 64 7 16 = some (64 * 2 ^ (16 - 7)) ∧
       scale_midi_value_min_center_max mask5_target 32 0 7 16 = some 0 ∧
       scale_midi_value_min_center_max mask5_target 32 (2 ^ (7 - 1)) 7 16
         = some (2 ^ (16 - 1))) :=
  ⟨by decide, scale_mcm_at_or_below_center mask5_target 32 64 7 16 (by decide) (by decide)
    (by decide) (by decide)⟩

/-- C4: for fixed `src_bits`, `dst_bits` in `1..32` and `value1 < value2 < 2^src_bits`,
both calls return and the result for `value1` is at most the result for `value2`. -/
theorem scale_mcm_monotone (t : ShiftTarget) (fuel v1 v2 s d : Nat) (hf : 32 ≤ fuel)
    (hs1 : 1 ≤ s) (hs : s ≤ 32) (hd1 : 1 ≤ d) (hd : d ≤ 32) (h12 : v1 < v2)
    (hv : v2 < 2 ^ s) :
    ∃ r1 r2, scale_midi_value_min_center_max t fuel v1 s d = some r1 ∧
      scale_midi_value_min_center_max t fuel v2 s d = some r2 ∧ r1 ≤ r2 := by
  by_cases hds : d ≤ s
  · exact ⟨_, _, scale_mcm_down t fuel v1 hds hs hd1, scale_mcm_down t fuel v2 hds hs hd1,
      Nat.div_le_div_right (le_of_lt h12)⟩
  · by_cases h1 : s = 1
    · subst h1
      have hv1 : v1 = 0 := by omega
      refine ⟨_, _, scale_mcm_one_bit t fuel v1 (by omega),
        scale_mcm_one_bit t fuel v2 (by omega), ?_⟩
      simp [hv1]
    · have hs2 : 2 ≤ s := by omega
      have hsd : s < d := by omega
      have hmul : v1 * 2 ^ (d - s) ≤ v2 * 2 ^ (d - s) :=
        Nat.mul_le_mul_right _ (le_of_lt h12)
      by_cases hc2 : v2 ≤ 2 ^ (s - 1)
      · exact ⟨_, _, scale_mcm_low t fuel hs2 hsd hd (by omega),
          scale_mcm_low t fuel hs2 hsd hd hc2, hmul⟩
      · obtain ⟨x2, _, hres2⟩ :=
          scale_mcm_high t hf hs2 hsd hd hv (show 2 ^ (s - 1) < v2 by omega)
        by_cases hc1 : v1 ≤ 2 ^ (s - 1)
        · exact ⟨_, _, scale_mcm_low t fuel hs2 hsd hd hc1, hres2, by omega⟩
        · obtain ⟨x1, hx1, hres1⟩ :=
            scale_mcm_high t hf hs2 hsd hd (lt_trans h12 hv) (show 2 ^ (s - 1) < v1 by omega)
          refine ⟨_, _, hres1, hres2, ?_⟩
          have h3 : (v1 + 1) * 2 ^ (d - s) ≤ v2 * 2 ^ (d - s) :=
            Nat.mul_le_mul_right _ h12
          rw [Nat.add_mul, one_mul] at h3
          omega

theorem scale_mcm_monotone_witness :
    (32 ≤ 32 ∧ 1 ≤ 7 ∧ 7 ≤ 32 ∧ 1 ≤ 16 ∧ 16 ≤ 32 ∧ 64 < 65 ∧ 65 < 2 ^ 7) ∧
      ∃ r1 r2, scale_midi_value_min_center_max mask5_target 32 64 7 16 = some r1 ∧
        scale_midi_value_min_center_max mask5_target 32 65 7 16 = some r2 ∧ r1 ≤ r2 :=
  ⟨by decide, scale_mcm_monotone mask5_target 32 64 65 7 16 (by decide) (by decide)
    (by decide) (by decide) (by decide) (by decide) (by decide)⟩

/-- C6: for `src_bits` in `2..31`, `dst_bits` in `src_bits+1..32` and every value above
the center (every 32-bit one in particular), `repeat_bits = src_bits - 1` is at least 1, one loop iteration strictly
decreases a nonzero `repeat_value`, and the function returns the same result for every fuel
of at least 32 iterations: the loop ends within 32 iterations. -/
theorem mcm_repeat_loop_terminates (t : ShiftTarget) (v s d : Nat) (hs2 : 2 ≤ s)
    (hs : s ≤ 31) (hsd : s < d) (hd : d ≤ 32) (hc : 2 ^ (s - 1) < v) :
    1 ≤ to_u8 ((s : Int) - 1) ∧
    (∀ repeat_value, 0 < repeat_value →
      shr32 t repeat_value (to_u8 ((s : Int) - 1)) < repeat_value) ∧
    ∃ r, r < 2 ^ 32 ∧
      ∀ fuel, 32 ≤ fuel → scale_midi_value_min_center_max t fuel v s d = some r := by
  have hu : to_u8 ((s : Int) - 1) = s - 1 := to_u8_pred (by omega) (by omega)
  refine ⟨by rw [hu]; omega, ?_, ?_⟩
  · intro rv hrv
    rw [hu, shr32_nat t rv (show s - 1 < 32 by omega)]
    exact Nat.div_lt_self hrv (Nat.one_lt_two_pow (by omega))
  · obtain ⟨x, hx, hres⟩ := scale_mcm_high_any t (le_refl 32) hs2 hsd hd hc
    refine ⟨(v * 2 ^ (d - s)) % 2 ^ 32 ||| x, Nat.or_lt_two_pow (Nat.mod_lt _ (by norm_num))
      (lt_of_lt_of_le hx (pow_le_u32 (by omega))), ?_⟩
    intro fuel hf
    exact scale_mcm_fuel_mono t hf hres

theorem mcm_repeat_loop_terminates_witness :
    (2 ≤ 7 ∧ 7 ≤ 31 ∧ 7 < 16 ∧ 16 ≤ 32 ∧ 2 ^ (7 - 1) < 200) ∧
      (1 ≤ to_u8 (((7 : Nat) : Int) - 1) ∧
       (∀ repeat_value, 0 < repeat_value →
         shr32 mask5_target repeat_value (to_u8 (((7 : Nat) : Int) - 1)) < repeat_value) ∧
       ∃ r, r < 2 ^ 32 ∧ ∀ fuel, 32 ≤ fuel →
         scale_midi_value_min_center_max mask5_target fuel 200 7 16 = some r) :=
  ⟨by decide, mcm_repeat_loop_terminates mask5_target 200 7 16 (by decide) (by decide)
    (by decide) (by decide) (by decide)⟩

/-! ## The caller contract -/

/-- C5, as stated, fails: with a value at or above `2^src_bits` (200 and 201 at 7 bits)
both operations return computed numbers, and no number is returned for every violated
contract, so none can serve as an error result. -/
theorem bit_scaler_no_error_result :
    scale_midi_value_min_center_max mask5_target 32 200 7 16 = some 102465 ∧
    scale_midi_value_zero_extension mask5_target 200 7 16 = 102400 ∧
    (¬ ∃ e : Nat, ∀ v s d : Nat, v < 2 ^ 32 → s < 256 → d < 256 →
      (s = 0 ∨ 32 < s ∨ d = 0 ∨ 32 < d ∨ 2 ^ s ≤ v) →
        scale_midi_value_min_center_max mask5_target 32 v s d = some e) ∧
    (¬ ∃ e : Nat, ∀ v s d : Nat, v < 2 ^ 32 → s < 256 → d < 256 →
      (s = 0 ∨ 32 < s ∨ d = 0 ∨ 32 < d ∨ 2 ^ s ≤ v) →
        scale_midi_value_zero_extension mask5_target v s d = e) := by
  have a1 : scale_midi_value_min_center_max mask5_target 32 200 7 16 = some 102465 := by
    decide
  have a2 : scale_midi_value_min_center_max mask5_target 32 201 7 16 = some 102985 := by
    decide
  have b1 : scale_midi_value_zero_extension mask5_target 200 7 16 = 102400 := by decide
  have b2 : scale_midi_value_zero_extension mask5_target 201 7 16 = 102912 := by decide
  refine ⟨a1, b1, ?_, ?_⟩
  · rintro ⟨e, h⟩
    have h1 := h 200 7 16 (by decide) (by decide) (by decide) (by decide)
    have h2 := h 201 7 16 (by decide) (by decide) (by decide) (by decide)
    rw [a1] at h1
    rw [a2] at h2
    have e1 : 102465 = e := Option.some.inj h1
    have e2 : 102985 = e := Option.some.inj h2
    omega
  · rintro ⟨e, h⟩
    have h1 := h 200 7 16 (by decide) (by decide) (by decide) (by decide)
    have h2 := h 201 7 16 (by decide) (by decide) (by decide) (by decide)
    rw [b1] at h1
    rw [b2] at h2
    omega

/-- C5, amended: the bit scaler checks nothing. For widths in `1..32` and every 32-bit
value, one at or above `2^src_bits` included, `scale_midi_value_min_center_max` returns a
32-bit number, which for `src_bits ≥ dst_bits` is `value >> (src_bits - dst_bits)`, and
`scale_midi_value_zero_extension` yields a 32-bit number, which for
`src_bits < dst_bits` is the low 32 bits of `value << (dst_bits - src_bits)`. -/
theorem bit_scaler_computes_unchecked (t : ShiftTarget) (fuel v s d : Nat) (hf : 32 ≤ fuel)
    (hs1 : 1 ≤ s) (hs : s ≤ 32) (hd1 : 1 ≤ d) (hd : d ≤ 32) (hv : v < 2 ^ 32) :
    (∃ r, scale_midi_value_min_center_max t fuel v s d = some r ∧ r < 2 ^ 32 ∧
      (d ≤ s → r = v >>> (s - d))) ∧
    scale_midi_value_zero_extension t v s d < 2 ^ 32 ∧
    (s < d → scale_midi_value_zero_extension t v s d = (v <<< (d - s)) % 2 ^ 32) := by
  refine ⟨?_, ?_, ?_⟩
  · obtain ⟨r, hr, hlt⟩ := scale_mcm_returns t hf hs1 hs hd1 hd hv
    refine ⟨r, hr, hlt, ?_⟩
    intro hds
    rw [scale_mcm_down t fuel v hds hs hd1] at hr
    rw [Nat.shiftRight_eq_div_pow]
    exact (Option.some.inj hr).symm
  · unfold scale_midi_value_zero_extension
    by_cases h : s ≥ d
    · simp only [if_pos h]
      have hmx := sub32_lt (shl32 t 1 ((d : Nat) : Int)) 1
      have hsh := shr32_lt t (((s - d : Nat) : Int))
        (add32_lt v (shl32 t 1 (((s - d : Nat) : Int) - 1)))
      split <;> omega
    · simp only [if_neg h]
      exact shl32_lt _ _ _
  · intro hsd
    have h : ¬ (s ≥ d) := by omega
    simp only [scale_midi_value_zero_extension, if_neg h,
      shl32_nat t v (show d - s < 32 by omega), Nat.shiftLeft_eq]

theorem bit_scaler_computes_unchecked_witness :
    (32 ≤ 32 ∧ 1 ≤ 7 ∧ 7 ≤ 32 ∧ 1 ≤ 16 ∧ 16 ≤ 32 ∧ 200 < 2 ^ 32) ∧
      ((∃ r, scale_midi_value_min_center_max mask5_target 32 200 7 16 = some r ∧ r < 2 ^ 32 ∧
        (16 ≤ 7 → r = 200 >>> (7 - 16))) ∧
      scale_midi_value_zero_extension mask5_target 200 7 16 < 2 ^ 32 ∧
      (7 < 16 → scale_midi_value_zero_extension mask5_target 200 7 16
        = (200 <<< (16 - 7)) % 2 ^ 32)) :=
  ⟨by decide, bit_scaler_computes_unchecked mask5_target 32 200 7 16 (by decide) (by decide)
    (by decide) (by decide) (by decide) (by decide)⟩

/-! ## Claims on `scale_midi_value_zero_extension` -/

/-- The downscale branch with `dst_bits < src_bits ≤ 32`: round, shift, clamp, the sum
being a `uint32_t` sum. -/
theorem zero_ext_down (t : ShiftTarget) (v : Nat) {s d : Nat} (hd1 : 1 ≤ d) (hds : d < s)
    (hs : s ≤ 32) :
    scale_midi_value_zero_extension t v s d
      = min (add32 v (2 ^ (s - d - 1)) / 2 ^ (s - d)) (2 ^ d - 1) := by
  have h : s ≥ d := by omega
  have e : (((s - d : Nat) : Int) - 1) = ((s - d - 1 : Nat) : Int) := by omega
  have hhalf : 2 ^ (s - d - 1) < 2 ^ 32 := Nat.pow_lt_pow_right (by norm_num) (by omega)
  have hmax : 2 ^ d < 2 ^ 32 := Nat.pow_lt_pow_right (by norm_num) (by omega)
  simp only [scale_midi_value_zero_extension, if_pos h, e,
    shl32_nat t 1 (show s - d - 1 < 32 by omega), shr32_nat t _ (show s - d < 32 by omega),
    shl32_nat t 1 (show d < 32 by omega), one_mul, Nat.mod_eq_of_lt hhalf,
    Nat.mod_eq_of_lt hmax,
    sub32_one (Nat.pos_pow_of_pos d (by norm_num)) (pow_le_u32 (by omega))]
  split
  · rw [min_eq_right]; omega
  · rw [min_eq_left]; omega

/-- Where the `uint32_t` sum `src_val + half_scale_range` does not wrap, the code does
what the specification says. -/
theorem zero_ext_down_eq_spec_of_no_wrap (t : ShiftTarget) {v s d : Nat} (hd1 : 1 ≤ d)
    (hds : d < s) (hs : s ≤ 32) (hsum : v + 2 ^ (s - d - 1) < 2 ^ 32) :
    scale_midi_value_zero_extension t v s d = zero_ext_downscale_spec v s d := by
  rw [zero_ext_down t v hd1 hds hs, zero_ext_downscale_spec, add32, Nat.mod_eq_of_lt hsum]

/-- C7: at `value = 2^32 - 1`, `src_bits = 32`, `dst_bits = 16`, the code returns 0 on
every target (the 32-bit sum `value + 2^15` wraps to `2^15 - 1` before the shift), while
rounding the exact sum and clamping gives `65535`. -/
theorem zero_ext_sum_wraps_at_32 (t : ShiftTarget) :
    scale_midi_value_zero_extension t 0xFFFFFFFF 32 16 = 0 ∧
    zero_ext_downscale_spec 0xFFFFFFFF 32 16 = 65535 := by
  constructor
  · rw [zero_ext_down t _ (by decide) (by decide) (by decide)]
    decide
  · decide

/-- C8: for `1 ≤ dst_bits ≤ src_bits ≤ 32` and every value (those below `2^src_bits`
included) the result of `scale_midi_value_zero_extension` is at most `2^dst_bits - 1`, on
every target, whatever the rounding half adds. -/
theorem zero_ext_down_le_max (t : ShiftTarget) (v s d : Nat) (hd1 : 1 ≤ d) (hds : d ≤ s)
    (hs : s ≤ 32) :
    scale_midi_value_zero_extension t v s d ≤ 2 ^ d - 1 := by
  have h : s ≥ d := hds
  simp only [scale_midi_value_zero_extension, if_pos h]
  by_cases h32 : d = 32
  · subst h32
    have hsh := shr32_lt t (((s - 32 : Nat) : Int))
      (add32_lt v (shl32 t 1 (((s - 32 : Nat) : Int) - 1)))
    have hmx := sub32_lt (shl32 t 1 ((32 : Nat) : Int)) 1
    split <;> omega
  · have hmax : 1 * 2 ^ d < 2 ^ 32 := by
      rw [one_mul]; exact Nat.pow_lt_pow_right (by norm_num) (by omega)
    rw [shl32_nat t 1 (show d < 32 by omega), Nat.mod_eq_of_lt hmax, one_mul,
      sub32_one (Nat.pos_pow_of_pos d (by norm_num)) (pow_le_u32 (by omega))]
    split <;> omega

theorem zero_ext_down_le_max_witness :
    (1 ≤ 8 ∧ 8 ≤ 16 ∧ 16 ≤ 32) ∧
      scale_midi_value_zero_extension mask5_target 65535 16 8 ≤ 2 ^ 8 - 1 :=
  ⟨by decide, zero_ext_down_le_max mask5_target 65535 16 8 (by decide) (by decide)
    (by decide)⟩

/-! ## Claims on the MIDI channel processor -/

/-- For any 32-bit velocity byte the `switch` completes, given fuel for 32 iterations of
the scaler's loop. -/
theorem midi_dispatch_returns (t : ShiftTarget) {fuel : Nat} (g : midi_processor_state_t)
    (status data1 : Nat) {data2 : Nat} (hf : 32 ≤ fuel) (hd2 : data2 < 2 ^ 32) :
    ∃ p, midi_dispatch t fuel g status data1 data2 = some p := by
  obtain ⟨r, hr, _⟩ := scale_mcm_returns t (v := data2) (s := 7) (d := 16) hf
    (by norm_num) (by norm_num) (by norm_num) (by norm_num) hd2
  unfold midi_dispatch
  simp only [hr]
  split_ifs <;> exact ⟨_, rfl⟩

/-- C9: for every message with a velocity byte `data2 < 256` (status and `data1`
arbitrary) `process_midi_message` returns; its code is `RETROSAGA_SUCCESS` exactly when the
processor is initialized; on a processor that is not initialized the code is
`RETROSAGA_ERROR_NOT_INITIALIZED` and the state is left as it was. The state before any
call and every state left by `midi_processing_shutdown` are not initialized. -/
theorem process_midi_message_success_iff_initialized (t : ShiftTarget) (fuel : Nat)
    (g : midi_processor_state_t) (status data1 data2 : Nat) (hf : 32 ≤ fuel)
    (hd2 : data2 < 256) :
    (∃ r, process_midi_message t fuel g status data1 data2 = some r ∧
      (r.code = RETROSAGA_SUCCESS ↔ g.initialized = true) ∧
      (g.initialized = false → r.code = RETROSAGA_ERROR_NOT_INITIALIZED ∧ r.state = g)) ∧
    g_midi_state.initialized = false ∧
    ∀ g0 : midi_processor_state_t, (midi_processing_shutdown g0).initialized = false := by
  refine ⟨?_, rfl, ?_⟩
  · cases hinit : g.initialized with
    | false =>
      refine ⟨_, by simp [process_midi_message, hinit]; rfl, ?_, ?_⟩
      · simp [RETROSAGA_SUCCESS, RETROSAGA_ERROR_NOT_INITIALIZED]
      · intro _
        exact ⟨rfl, rfl⟩
    | true =>
      obtain ⟨p, hp⟩ := midi_dispatch_returns t g status data1 hf
        (show data2 < 2 ^ 32 by omega)
      refine ⟨_, by simp [process_midi_message, hinit, hp]; rfl, ?_, ?_⟩
      · simp
      · intro h
        exact absurd h (by simp)
  · intro g0
    unfold midi_processing_shutdown
    cases h0 : g0.initialized <;> simp [h0, g_midi_state]

theorem process_midi_message_success_iff_initialized_witness :
    (32 ≤ 32 ∧ 127 < 256) ∧
      ((∃ r, process_midi_message mask5_target 32 (midi_processing_init g_midi_state).2
          0x90 60 127 = some r ∧
        (r.code = RETROSAGA_SUCCESS ↔ (midi_processing_init g_midi_state).2.initialized = true) ∧
        ((midi_processing_init g_midi_state).2.initialized = false →
          r.code = RETROSAGA_ERROR_NOT_INITIALIZED ∧
            r.state = (midi_processing_init g_midi_state).2)) ∧
      g_midi_state.initialized = false ∧
      ∀ g0 : midi_processor_state_t, (midi_processing_shutdown g0).initialized = false) :=
  ⟨by decide, process_midi_message_success_iff_initialized mask5_target 32
    (midi_processing_init g_midi_state).2 0x90 60 127 (by decide) (by decide)⟩

/-- C10: `midi_processing_init` on an initialized processor returns
`RETROSAGA_ERROR_ALREADY_INITIALIZED` and leaves the whole state (every count, every volume,
the message counter) as it was. -/
theorem midi_processing_init_rejects_second (g : midi_processor_state_t)
    (h : g.initialized = true) :
    midi_processing_init g = (RETROSAGA_ERROR_ALREADY_INITIALIZED, g) := by
  simp [midi_processing_init, h]

theorem midi_processing_init_rejects_second_witness :
    sample_running_state.initialized = true ∧
      midi_processing_init sample_running_state
        = (RETROSAGA_ERROR_ALREADY_INITIALIZED, sample_running_state) :=
  ⟨rfl, midi_processing_init_rejects_second sample_running_state rfl⟩

/-! ## Float rounding: basic facts -/

theorem round_half_even_ge_floor (q : ℚ) : Int.floor q ≤ round_half_even q := by
  unfold round_half_even
  split_ifs <;> omega

theorem round_half_even_le_floor_succ (q : ℚ) : round_half_even q ≤ Int.floor q + 1 := by
  unfold round_half_even
  split_ifs <;> omega

theorem le_round_half_even {n : Int} {q : ℚ} (h : (n : ℚ) ≤ q) : n ≤ round_half_even q :=
  le_trans (Int.le_floor.mpr h) (round_half_even_ge_floor q)

theorem round_half_even_le {n : Int} {q : ℚ} (h : q ≤ (n : ℚ)) : round_half_even q ≤ n := by
  by_cases hlt : Int.floor q < n
  · have := round_half_even_le_floor_succ q
    omega
  · have hfl : ((Int.floor q : Int) : ℚ) ≤ (n : ℚ) := le_trans (Int.floor_le q) h
    have hfl2 : Int.floor q ≤ n := by exact_mod_cast hfl
    have heq : Int.floor q = n := by omega
    have hfrac : q - ((Int.floor q : Int) : ℚ) < 1 / 2 := by
      rw [heq]
      linarith
    unfold round_half_even
    rw [if_pos hfrac, heq]

theorem round_half_even_abs_sub_le (q : ℚ) : |(round_half_even q : ℚ) - q| ≤ 1 / 2 := by
  have h1 := Int.floor_le q
  have h2 := Int.lt_floor_add_one q
  unfold round_half_even
  split_ifs with ha hb hc <;> rw [abs_le] <;> constructor <;> push_cast <;> linarith

theorem round_half_even_eq {n : Int} {q : ℚ} (h1 : (n : ℚ) - 1 / 2 < q)
    (h2 : q < (n : ℚ) + 1 / 2) : round_half_even q = n := by
  have h := round_half_even_abs_sub_le q
  rw [abs_le] at h
  have ha : ((round_half_even q : Int) : ℚ) < (n : ℚ) + 1 := by linarith [h.2]
  have hb : (n : ℚ) - 1 < ((round_half_even q : Int) : ℚ) := by linarith [h.1]
  have ha2 : round_half_even q < n + 1 := by exact_mod_cast ha
  have hb2 : n - 1 < round_half_even q := by exact_mod_cast hb
  omega


theorem round_half_even_intCast (n : Int) : round_half_even (n : ℚ) = n :=
  le_antisymm (round_half_even_le (le_refl _)) (le_round_half_even (le_refl _))

theorem float_round_zero (p : Nat) (emin : Int) : float_round p emin 0 = 0 := by
  simp [float_round]

theorem two_zpow_pos (z : Int) : (0 : ℚ) < (2 : ℚ) ^ z := zpow_pos (by norm_num) z

/-- The exponent of the binade is at most `k` when `|x| ≤ 2^k` and `emin ≤ k`. -/
theorem float_exponent_le {emin k : Int} {x : ℚ} (hx : x ≠ 0) (hk : |x| ≤ (2 : ℚ) ^ k)
    (hemin : emin ≤ k) : float_exponent emin x ≤ k := by
  have hpos : 0 < |x| := abs_pos.mpr hx
  have h1 : ((2 : Nat) : ℚ) ^ Int.log 2 |x| ≤ |x| := Int.zpow_log_le_self (by norm_num) hpos
  have h2 : ((2 : Nat) : ℚ) ^ Int.log 2 |x| ≤ ((2 : Nat) : ℚ) ^ k := by
    push_cast
    push_cast at h1
    exact le_trans h1 hk
  have h3 : Int.log 2 |x| ≤ k := by
    push_cast at h2
    exact (zpow_le_zpow_iff_right₀ (by norm_num : (1 : ℚ) < 2)).mp h2
  unfold float_exponent
  exact max_le h3 hemin

/-- Rounding keeps a value within a bound that is a power of two of the format. -/
theorem float_round_abs_le (p : Nat) (emin : Int) {k : Int} {x : ℚ}
    (hk : |x| ≤ (2 : ℚ) ^ k) (hemin : emin ≤ k) (hp : 1 ≤ p) :
    |float_round p emin x| ≤ (2 : ℚ) ^ k := by
  by_cases hx : x = 0
  · subst hx
    rw [float_round_zero, abs_zero]
    exact le_of_lt (two_zpow_pos k)
  · have hE := float_exponent_le hx hk hemin
    unfold float_round
    rw [if_neg hx]
    generalize float_exponent emin x = E at hE
    have hu : (0 : ℚ) < (2 : ℚ) ^ (E - ((p : Int) - 1)) := two_zpow_pos _
    have hd : 0 ≤ k - (E - ((p : Int) - 1)) := by omega
    obtain ⟨m, hm⟩ := Int.eq_ofNat_of_zero_le hd
    have hpow : (2 : ℚ) ^ k = ((2 ^ m : Nat) : Int) * (2 : ℚ) ^ (E - ((p : Int) - 1)) := by
      have : k = (m : Int) + (E - ((p : Int) - 1)) := by omega
      rw [this, zpow_add₀ (by norm_num : (2 : ℚ) ≠ 0)]
      push_cast
      rw [zpow_natCast]
    rw [abs_le] at hk
    have hq1 : x / (2 : ℚ) ^ (E - ((p : Int) - 1)) ≤ (((2 ^ m : Nat) : Int) : ℚ) := by
      rw [div_le_iff₀ hu, ← hpow]
      exact hk.2
    have hq2 : ((-((2 ^ m : Nat) : Int) : Int) : ℚ) ≤ x / (2 : ℚ) ^ (E - ((p : Int) - 1)) := by
      rw [le_div_iff₀ hu]
      push_cast
      have := hk.1
      rw [hpow] at this
      push_cast at this
      linarith
    have hr1 := round_half_even_le hq1
    have hr2 := le_round_half_even hq2
    have hr1q : ((round_half_even (x / (2 : ℚ) ^ (E - ((p : Int) - 1))) : Int) : ℚ)
        ≤ (((2 ^ m : Nat) : Int) : ℚ) := by exact_mod_cast hr1
    have hr2q : ((-((2 ^ m : Nat) : Int) : Int) : ℚ)
        ≤ ((round_half_even (x / (2 : ℚ) ^ (E - ((p : Int) - 1))) : Int) : ℚ) := by
      exact_mod_cast hr2
    rw [abs_le, hpow]
    constructor
    · have := mul_le_mul_of_nonneg_right hr2q (le_of_lt hu)
      push_cast at this ⊢
      linarith
    · exact mul_le_mul_of_nonneg_right hr1q (le_of_lt hu)

/-- Rounding keeps the sign. -/
theorem float_round_nonneg (p : Nat) (emin : Int) {x : ℚ} (hx : 0 ≤ x) :
    0 ≤ float_round p emin x := by
  unfold float_round
  split
  · exact le_refl _
  · apply mul_nonneg _ (le_of_lt (two_zpow_pos _))
    have : ((0 : Int) : ℚ) ≤ x / (2 : ℚ) ^ (float_exponent emin x - ((p : Int) - 1)) := by
      push_cast
      exact div_nonneg hx (le_of_lt (two_zpow_pos _))
    exact_mod_cast le_round_half_even this


/-- The exponent of the binade of `x` when `2^e ≤ |x| < 2^(e+1)` and `emin ≤ e`. -/
theorem float_exponent_eq {emin e : Int} {x : ℚ} (h1 : (2 : ℚ) ^ e ≤ |x|)
    (h2 : |x| < (2 : ℚ) ^ (e + 1)) (hemin : emin ≤ e) : float_exponent emin x = e := by
  have hpos : 0 < |x| := lt_of_lt_of_le (two_zpow_pos e) h1
  have ha : e ≤ Int.log 2 |x| := by
    apply (Int.zpow_le_iff_le_log (by norm_num) hpos).mp
    push_cast
    exact h1
  have hb : Int.log 2 |x| < e + 1 := by
    apply (Int.lt_zpow_iff_log_lt (by norm_num) hpos).mp
    push_cast
    exact h2
  unfold float_exponent
  rw [max_eq_left (by omega)]
  omega

/-- The value of the rounding, from the binade of `x` and the integer nearest to `x` in
units of the spacing. -/
theorem float_round_eq (p : Nat) (emin e n : Int) (x : ℚ) (h1 : (2 : ℚ) ^ e ≤ |x|)
    (h2 : |x| < (2 : ℚ) ^ (e + 1)) (hemin : emin ≤ e)
    (hn1 : (n : ℚ) - 1 / 2 < x / (2 : ℚ) ^ (e - ((p : Int) - 1)))
    (hn2 : x / (2 : ℚ) ^ (e - ((p : Int) - 1)) < (n : ℚ) + 1 / 2) :
    float_round p emin x = (n : ℚ) * (2 : ℚ) ^ (e - ((p : Int) - 1)) := by
  have hx : x ≠ 0 := by
    intro h
    rw [h, abs_zero] at h1
    exact absurd h1 (not_le.mpr (two_zpow_pos e))
  unfold float_round
  rw [if_neg hx, float_exponent_eq h1 h2 hemin, round_half_even_eq hn1 hn2]

/-- The rounding error is at most half the spacing of the binade. -/
theorem float_round_error (p : Nat) (emin : Int) (x : ℚ) :
    |float_round p emin x - x|
      ≤ (2 : ℚ) ^ (float_exponent emin x - ((p : Int) - 1)) / 2 := by
  have hu : (0 : ℚ) < (2 : ℚ) ^ (float_exponent emin x - ((p : Int) - 1)) := two_zpow_pos _
  by_cases hx : x = 0
  · subst hx
    rw [float_round_zero, sub_zero, abs_zero]
    exact le_of_lt (half_pos hu)
  · unfold float_round
    rw [if_neg hx]
    generalize (2 : ℚ) ^ (float_exponent emin x - ((p : Int) - 1)) = u at hu
    have h := round_half_even_abs_sub_le (x / u)
    have e : (round_half_even (x / u) : ℚ) * u - x
        = ((round_half_even (x / u) : ℚ) - x / u) * u := by
      field_simp
    rw [e, abs_mul, abs_of_pos hu]
    calc |(round_half_even (x / u) : ℚ) - x / u| * u ≤ 1 / 2 * u :=
          mul_le_mul_of_nonneg_right h (le_of_lt hu)
      _ = u / 2 := by ring

theorem round_binary32_one : round_binary32 1 = 1 := by
  have h := float_round_eq 24 (-126) 0 8388608 1
    (by norm_num) (by norm_num) (by norm_num) (by norm_num) (by norm_num)
  unfold round_binary32
  rw [h]
  norm_num

theorem round_binary32_100_div_127 : round_binary32 (100 / 127) = 6605203 / 8388608 := by
  have h := float_round_eq 24 (-126) (-1) 13210406 (100 / 127)
    (by rw [abs_of_pos (by norm_num)]; norm_num) (by rw [abs_of_pos (by norm_num)]; norm_num)
    (by norm_num) (by norm_num) (by norm_num)
  unfold round_binary32
  rw [h]
  norm_num

theorem round_binary32_200_div_127 : round_binary32 (200 / 127) = 6605203 / 4194304 := by
  have h := float_round_eq 24 (-126) 0 13210406 (200 / 127)
    (by rw [abs_of_pos (by norm_num)]; norm_num) (by rw [abs_of_pos (by norm_num)]; norm_num)
    (by norm_num) (by norm_num) (by norm_num)
  unfold round_binary32
  rw [h]
  norm_num


/-- For a value in the normal range the rounding error is at most `|x| / 2^p`. -/
theorem float_round_rel_error (p : Nat) {emin : Int} {x : ℚ}
    (hnorm : (2 : ℚ) ^ emin ≤ |x|) :
    |float_round p emin x - x| ≤ |x| / (2 : ℚ) ^ p := by
  have hpos : 0 < |x| := lt_of_lt_of_le (two_zpow_pos emin) hnorm
  have hlog : emin ≤ Int.log 2 |x| := by
    apply (Int.zpow_le_iff_le_log (by norm_num) hpos).mp
    push_cast
    exact hnorm
  have h1 : ((2 : Nat) : ℚ) ^ Int.log 2 |x| ≤ |x| := Int.zpow_log_le_self (by norm_num) hpos
  push_cast at h1
  have hE : float_exponent emin x = Int.log 2 |x| := by
    unfold float_exponent
    exact max_eq_left hlog
  have herr := float_round_error p emin x
  rw [hE] at herr
  have e1 : (2 : ℚ) ^ (Int.log 2 |x| - ((p : Int) - 1)) / 2
      = (2 : ℚ) ^ Int.log 2 |x| / (2 : ℚ) ^ p := by
    have hp2 : (2 : ℚ) ^ p = (2 : ℚ) ^ ((p : Int) - 1) * 2 := by
      rw [← zpow_natCast, show ((p : Nat) : Int) = ((p : Int) - 1) + 1 by omega,
        zpow_add_one₀ (by norm_num : (2 : ℚ) ≠ 0)]
      simp
    rw [hp2, zpow_sub₀ (by norm_num : (2 : ℚ) ≠ 0), div_div]
  rw [e1] at herr
  exact le_trans herr (div_le_div_of_nonneg_right h1 (le_of_lt (pow_pos (by norm_num) p)))

/-- Rounding to `float` keeps a value of `[0, 1]` in `[0, 1]`. -/
theorem round_binary32_unit {x : ℚ} (h0 : 0 ≤ x) (h1 : x ≤ 1) :
    0 ≤ round_binary32 x ∧ round_binary32 x ≤ 1 := by
  refine ⟨float_round_nonneg 24 (-126) h0, ?_⟩
  have habs : |x| ≤ (2 : ℚ) ^ (0 : Int) := by
    rw [abs_of_nonneg h0, zpow_zero]
    exact h1
  have h := float_round_abs_le 24 (-126) habs (by norm_num) (by norm_num)
  rw [zpow_zero] at h
  exact le_trans (le_abs_self _) h

/-- Rounding to `float` keeps a value of `[-1/2, 1/2]` in `[-1/2, 1/2]`. -/
theorem round_binary32_half {x : ℚ} (h0 : -(1 / 2) ≤ x) (h1 : x ≤ 1 / 2) :
    -(1 / 2) ≤ round_binary32 x ∧ round_binary32 x ≤ 1 / 2 := by
  have habs : |x| ≤ (2 : ℚ) ^ (-1 : Int) := by
    rw [abs_le]
    constructor <;> norm_num <;> linarith
  have h := float_round_abs_le 24 (-126) habs (by norm_num) (by norm_num)
  rw [abs_le] at h
  have e : (2 : ℚ) ^ (-1 : Int) = 1 / 2 := by norm_num
  rw [e] at h
  exact h

/-! ## One call of `process_midi_message`, case by case -/

theorem process_not_initialized (t : ShiftTarget) (fuel : Nat) {g : midi_processor_state_t}
    (status data1 data2 : Nat) (hinit : g.initialized = false) :
    process_midi_message t fuel g status data1 data2
      = some { code := RETROSAGA_ERROR_NOT_INITIALIZED, state := g, scaled_velocity := none } := by
  simp [process_midi_message, hinit]

theorem process_of_dispatch (t : ShiftTarget) (fuel : Nat) {g : midi_processor_state_t}
    (status data1 data2 : Nat) (hinit : g.initialized = true)
    {g1 : midi_processor_state_t} {sv : Option Nat}
    (h : midi_dispatch t fuel g status data1 data2 = some (g1, sv)) :
    process_midi_message t fuel g status data1 data2
      = some { code := RETROSAGA_SUCCESS
               state := { g1 with messages_processed := (g1.messages_processed + 1) % 2 ^ 32 }
               scaled_velocity := sv } := by
  simp [process_midi_message, hinit, h]

theorem midi_dispatch_note_off (t : ShiftTarget) (fuel : Nat) (g : midi_processor_state_t)
    {status : Nat} (data1 data2 : Nat) (h : status &&& 0xF0 = MIDI_NOTE_OFF) :
    midi_dispatch t fuel g status data1 data2
      = some (if g.active_channels (midi_channel status) > 0 then
          { g with
            active_channels :=
              Function.update g.active_channels (midi_channel status)
                (g.active_channels (midi_channel status) - 1) }
        else g, none) := by
  have hne : ¬ (MIDI_NOTE_OFF = MIDI_NOTE_ON) := by decide
  simp only [midi_dispatch, h, if_neg hne, if_true]
  split <;> rfl

theorem midi_dispatch_note_on_zero (t : ShiftTarget) (fuel : Nat) (g : midi_processor_state_t)
    {status : Nat} (data1 : Nat) (h : status &&& 0xF0 = MIDI_NOTE_ON) :
    midi_dispatch t fuel g status data1 0
      = some (if g.active_channels (midi_channel status) > 0 then
          { g with
            active_channels :=
              Function.update g.active_channels (midi_channel status)
                (g.active_channels (midi_channel status) - 1) }
        else g, none) := by
  have h0 : ¬ ((0 : Nat) > 0) := by decide
  simp only [midi_dispatch, h, if_true, if_neg h0]
  split <;> rfl

theorem midi_dispatch_note_on (t : ShiftTarget) {fuel : Nat} (g : midi_processor_state_t)
    {status : Nat} (data1 : Nat) {data2 : Nat} (h : status &&& 0xF0 = MIDI_NOTE_ON)
    (hpos : data2 > 0) (hf : 32 ≤ fuel) (hd2 : data2 < 2 ^ 32) :
    ∃ sv, scale_midi_value_min_center_max t fuel data2 7 16 = some sv ∧
      midi_dispatch t fuel g status data1 data2
        = some ({ g with
            active_channels :=
              Function.update g.active_channels (midi_channel status)
                ((g.active_channels (midi_channel status) + 1) % 256) }, some sv) := by
  obtain ⟨r, hr, _⟩ := scale_mcm_returns t (v := data2) (s := 7) (d := 16) hf
    (by norm_num) (by norm_num) (by norm_num) (by norm_num) hd2
  refine ⟨r, hr, ?_⟩
  simp only [midi_dispatch, h, if_true, if_pos hpos, hr]

theorem midi_dispatch_volume (t : ShiftTarget) (fuel : Nat) (g : midi_processor_state_t)
    {status : Nat} (data2 : Nat) (h : status &&& 0xF0 = MIDI_CONTROL_CHANGE) :
    midi_dispatch t fuel g status 7 data2
      = some ({ g with
          channel_volumes :=
            Function.update g.channel_volumes (midi_channel status)
              (round_binary32 ((data2 : ℚ) / 127)) },
        none) := by
  have h1 : ¬ (MIDI_CONTROL_CHANGE = MIDI_NOTE_ON) := by decide
  have h2 : ¬ (MIDI_CONTROL_CHANGE = MIDI_NOTE_OFF) := by decide
  simp only [midi_dispatch, h, if_neg h1, if_neg h2, if_true]

theorem midi_dispatch_other (t : ShiftTarget) (fuel : Nat) (g : midi_processor_state_t)
    {status data1 : Nat} (data2 : Nat) (hon : status &&& 0xF0 ≠ MIDI_NOTE_ON)
    (hoff : status &&& 0xF0 ≠ MIDI_NOTE_OFF)
    (hcc : ¬ (status &&& 0xF0 = MIDI_CONTROL_CHANGE ∧ data1 = 7)) :
    midi_dispatch t fuel g status data1 data2 = some (g, none) := by
  simp only [midi_dispatch, if_neg hon, if_neg hoff]
  by_cases h1 : status &&& 0xF0 = MIDI_CONTROL_CHANGE
  · have h7 : ¬ (data1 = 7) := fun h => hcc ⟨h1, h⟩
    simp only [if_pos h1, if_neg h7]
  · simp only [if_neg h1]
    split <;> rfl

theorem status_or_channel (c : Fin 16) :
    (0x80 ||| c.val) &&& 0xF0 = MIDI_NOTE_OFF ∧ midi_channel (0x80 ||| c.val) = c ∧
    (0x90 ||| c.val) &&& 0xF0 = MIDI_NOTE_ON ∧ midi_channel (0x90 ||| c.val) = c ∧
    (0xB0 ||| c.val) &&& 0xF0 = MIDI_CONTROL_CHANGE ∧ midi_channel (0xB0 ||| c.val) = c := by
  revert c
  decide

/-! ## Initialization and shutdown -/

/-- C11: after a successful `midi_processing_init` every channel has count 0 and volume 1,
the message counter is 0 and the processor is initialized, whatever the state held before;
the call succeeds from the state before any call and from every state left by
`midi_processing_shutdown`. -/
theorem midi_processing_init_sets_defaults (g : midi_processor_state_t)
    (h : (midi_processing_init g).1 = RETROSAGA_SUCCESS) :
    (∀ c : Fin 16, (midi_processing_init g).2.active_channels c = 0 ∧
      (midi_processing_init g).2.channel_volumes c = 1) ∧
    (midi_processing_init g).2.messages_processed = 0 ∧
    (midi_processing_init g).2.initialized = true ∧
    (midi_processing_init g_midi_state).1 = RETROSAGA_SUCCESS ∧
    ∀ g0 : midi_processor_state_t,
      (midi_processing_init (midi_processing_shutdown g0)).1 = RETROSAGA_SUCCESS := by
  have hshut : ∀ g0 : midi_processor_state_t,
      (midi_processing_init (midi_processing_shutdown g0)).1 = RETROSAGA_SUCCESS := by
    intro g0
    unfold midi_processing_shutdown
    cases h0 : g0.initialized <;> simp [h0, g_midi_state, midi_processing_init]
  cases hinit : g.initialized with
  | true =>
    simp [midi_processing_init, hinit, RETROSAGA_SUCCESS,
      RETROSAGA_ERROR_ALREADY_INITIALIZED] at h
  | false =>
    refine ⟨?_, ?_, ?_, rfl, hshut⟩ <;> simp [midi_processing_init, hinit]

theorem midi_processing_init_sets_defaults_witness :
    (midi_processing_init (midi_processing_shutdown sample_running_state)).1
        = RETROSAGA_SUCCESS ∧
      ((∀ c : Fin 16,
        (midi_processing_init (midi_processing_shutdown sample_running_state)).2.active_channels
            c = 0 ∧
        (midi_processing_init (midi_processing_shutdown sample_running_state)).2.channel_volumes
            c = 1) ∧
      (midi_processing_init (midi_processing_shutdown sample_running_state)).2.messages_processed
        = 0 ∧
      (midi_processing_init (midi_processing_shutdown sample_running_state)).2.initialized
        = true ∧
      (midi_processing_init g_midi_state).1 = RETROSAGA_SUCCESS ∧
      ∀ g0 : midi_processor_state_t,
        (midi_processing_init (midi_processing_shutdown g0)).1 = RETROSAGA_SUCCESS) :=
  ⟨rfl, midi_processing_init_sets_defaults (midi_processing_shutdown sample_running_state) rfl⟩

/-- C12, as stated, fails: shutting down a freshly initialized processor leaves the volume
of channel 0 at 0, not at 1. -/
theorem midi_processing_shutdown_volume_not_one :
    (midi_processing_init g_midi_state).2.initialized = true ∧
    (midi_processing_init g_midi_state).2.channel_volumes 0 = 1 ∧
    (midi_processing_shutdown (midi_processing_init g_midi_state).2).channel_volumes 0 = 0 ∧
    (midi_processing_shutdown (midi_processing_init g_midi_state).2).channel_volumes 0 ≠ 1 := by
  refine ⟨rfl, rfl, rfl, ?_⟩
  show (0 : ℚ) ≠ 1
  norm_num

/-- C12, amended: `midi_processing_shutdown` on an initialized processor zeroes the whole
state: every channel has count 0 and volume 0, the message counter is 0 and the processor
is not initialized; the next `midi_processing_init` succeeds and gives every channel
volume 1. -/
theorem midi_processing_shutdown_zeroes (g : midi_processor_state_t)
    (h : g.initialized = true) :
    (∀ c : Fin 16, (midi_processing_shutdown g).active_channels c = 0 ∧
      (midi_processing_shutdown g).channel_volumes c = 0) ∧
    (midi_processing_shutdown g).messages_processed = 0 ∧
    (midi_processing_shutdown g).initialized = false ∧
    (midi_processing_init (midi_processing_shutdown g)).1 = RETROSAGA_SUCCESS ∧
    ∀ c : Fin 16, (midi_processing_init (midi_processing_shutdown g)).2.channel_volumes c = 1 := by
  have hs : midi_processing_shutdown g = g_midi_state := by
    simp [midi_processing_shutdown, h]
  rw [hs]
  refine ⟨fun c => ⟨rfl, rfl⟩, rfl, rfl, rfl, fun c => rfl⟩

theorem midi_processing_shutdown_zeroes_witness :
    sample_running_state.initialized = true ∧
      ((∀ c : Fin 16, (midi_processing_shutdown sample_running_state).active_channels c = 0 ∧
        (midi_processing_shutdown sample_running_state).channel_volumes c = 0) ∧
      (midi_processing_shutdown sample_running_state).messages_processed = 0 ∧
      (midi_processing_shutdown sample_running_state).initialized = false ∧
      (midi_processing_init (midi_processing_shutdown sample_running_state)).1
        = RETROSAGA_SUCCESS ∧
      ∀ c : Fin 16,
        (midi_processing_init (midi_processing_shutdown sample_running_state)).2.channel_volumes
          c = 1) :=
  ⟨rfl, midi_processing_shutdown_zeroes sample_running_state rfl⟩

/-! ## Active-note counts -/

/-- A Note-Off, or a Note-On with velocity 0, on channel `c` of an initialized processor
whose count on `c` is 0: the call succeeds and the count stays 0. -/
theorem note_off_on_idle (t : ShiftTarget) (fuel : Nat) {g : midi_processor_state_t}
    (c : Fin 16) {status : Nat} (data1 data2 : Nat) (hinit : g.initialized = true)
    (h0 : g.active_channels c = 0)
    (hm : status = 0x80 ||| c.val ∨ (status = 0x90 ||| c.val ∧ data2 = 0)) :
    ∃ r, process_midi_message t fuel g status data1 data2 = some r ∧
      r.code = RETROSAGA_SUCCESS ∧ r.state.initialized = true ∧
      r.state.active_channels c = 0 := by
  obtain ⟨hoff, hcoff, hon, hcon, _, _⟩ := status_or_channel c
  have hd : midi_dispatch t fuel g status data1 data2 = some (g, none) := by
    rcases hm with hm | ⟨hm, hz⟩
    · subst hm
      rw [midi_dispatch_note_off t fuel g data1 data2 hoff, hcoff, h0]
      rfl
    · subst hm
      subst hz
      rw [midi_dispatch_note_on_zero t fuel g data1 hon, hcon, h0]
      rfl
  exact ⟨_, process_of_dispatch t fuel status data1 data2 hinit hd, rfl, hinit, h0⟩

/-- C13: from an initialized state in which channel `c` has count 0, any finite sequence
of Note-Off messages (`0x80 | c`) and Note-On messages with velocity 0 (`0x90 | c`,
`data2 = 0`), with arbitrary note bytes, is processed and leaves the count of `c` at 0. -/
theorem note_off_never_underflows (t : ShiftTarget) (fuel : Nat) (c : Fin 16)
    (msgs : List (Nat × Nat × Nat)) (g : midi_processor_state_t)
    (hinit : g.initialized = true) (h0 : g.active_channels c = 0)
    (hm : ∀ m ∈ msgs, m.1 = 0x80 ||| c.val ∨ (m.1 = 0x90 ||| c.val ∧ m.2.2 = 0)) :
    ∃ g1, process_midi_messages t fuel g msgs = some g1 ∧ g1.active_channels c = 0 := by
  induction msgs generalizing g with
  | nil => exact ⟨g, rfl, h0⟩
  | cons m rest ih =>
    obtain ⟨status, data1, data2⟩ := m
    obtain ⟨r, hr, _, hri, hr0⟩ :=
      note_off_on_idle t fuel c data1 data2 hinit h0 (hm (status, data1, data2) (by simp))
    obtain ⟨g1, hg1, hc⟩ := ih r.state hri hr0 (fun m hmem => hm m (by simp [hmem]))
    exact ⟨g1, by simp [process_midi_messages, hr, hg1], hc⟩

theorem note_off_never_underflows_witness :
    ((midi_processing_init g_midi_state).2.initialized = true ∧
      (midi_processing_init g_midi_state).2.active_channels 3 = 0 ∧
      ∀ m ∈ [(0x83, 60, 64), (0x93, 61, 0), (0x83, 200, 255)],
        m.1 = 0x80 ||| (3 : Fin 16).val ∨ (m.1 = 0x90 ||| (3 : Fin 16).val ∧ m.2.2 = 0)) ∧
      ∃ g1, process_midi_messages mask5_target 32 (midi_processing_init g_midi_state).2
          [(0x83, 60, 64), (0x93, 61, 0), (0x83, 200, 255)] = some g1 ∧
        g1.active_channels 3 = 0 :=
  ⟨⟨rfl, rfl, by decide⟩,
    note_off_never_underflows mask5_target 32 3 [(0x83, 60, 64), (0x93, 61, 0), (0x83, 200, 255)]
      (midi_processing_init g_midi_state).2 rfl rfl (by decide)⟩

/-! ## The effect of one successful call -/

/-- What a call on an initialized processor does to the state: it succeeds, adds one to
the message counter modulo `2^32`, changes a volume only for Control-Change 7 (then the
volume of the addressed channel), and changes a count only for Note-On and Note-Off (then
only the count of the addressed channel). -/
theorem process_initialized_effect (t : ShiftTarget) {fuel : Nat} (g : midi_processor_state_t)
    (status data1 : Nat) {data2 : Nat} (hinit : g.initialized = true) (hf : 32 ≤ fuel)
    (hd2 : data2 < 2 ^ 32) :
    ∃ r, process_midi_message t fuel g status data1 data2 = some r ∧
      r.code = RETROSAGA_SUCCESS ∧ r.state.initialized = true ∧
      r.state.messages_processed = (g.messages_processed + 1) % 2 ^ 32 ∧
      r.state.channel_volumes
        = (if status &&& 0xF0 = MIDI_CONTROL_CHANGE ∧ data1 = 7 then
            Function.update g.channel_volumes (midi_channel status)
              (round_binary32 ((data2 : ℚ) / 127))
          else g.channel_volumes) ∧
      (∀ c, c ≠ midi_channel status → r.state.active_channels c = g.active_channels c) ∧
      (status &&& 0xF0 ≠ MIDI_NOTE_ON → status &&& 0xF0 ≠ MIDI_NOTE_OFF →
        r.state.active_channels = g.active_channels) := by
  have hcc_on : ¬ (MIDI_NOTE_ON = MIDI_CONTROL_CHANGE) := by decide
  have hcc_off : ¬ (MIDI_NOTE_OFF = MIDI_CONTROL_CHANGE) := by decide
  by_cases hon : status &&& 0xF0 = MIDI_NOTE_ON
  · have hnocc : ¬ (status &&& 0xF0 = MIDI_CONTROL_CHANGE ∧ data1 = 7) := by
      rw [hon]; exact fun h => hcc_on h.1
    by_cases hpos : data2 > 0
    · obtain ⟨sv, _, hd⟩ := midi_dispatch_note_on t g data1 hon hpos hf hd2
      refine ⟨_, process_of_dispatch t fuel status data1 data2 hinit hd, rfl, hinit, rfl,
        by rw [if_neg hnocc], ?_, fun h => absurd hon h⟩
      intro c hc
      exact Function.update_noteq hc _ _
    · have hz : data2 = 0 := by omega
      subst hz
      have hd := midi_dispatch_note_on_zero t fuel g data1 hon
      refine ⟨_, process_of_dispatch t fuel status data1 0 hinit hd, rfl, ?_, ?_, ?_, ?_,
        fun h => absurd hon h⟩
      · split <;> exact hinit
      · split <;> rfl
      · rw [if_neg hnocc]; split <;> rfl
      · intro c hc
        split
        · exact Function.update_noteq hc _ _
        · rfl
  · by_cases hoff : status &&& 0xF0 = MIDI_NOTE_OFF
    · have hnocc : ¬ (status &&& 0xF0 = MIDI_CONTROL_CHANGE ∧ data1 = 7) := by
        rw [hoff]; exact fun h => hcc_off h.1
      have hd := midi_dispatch_note_off t fuel g data1 data2 hoff
      refine ⟨_, process_of_dispatch t fuel status data1 data2 hinit hd, rfl, ?_, ?_, ?_, ?_,
        fun _ h => absurd hoff h⟩
      · split <;> exact hinit
      · split <;> rfl
      · rw [if_neg hnocc]; split <;> rfl
      · intro c hc
        split
        · exact Function.update_noteq hc _ _
        · rfl
    · by_cases hcc : status &&& 0xF0 = MIDI_CONTROL_CHANGE ∧ data1 = 7
      · obtain ⟨h1, h7⟩ := hcc
        subst h7
        have hd := midi_dispatch_volume t fuel g data2 h1
        refine ⟨_, process_of_dispatch t fuel status 7 data2 hinit hd, rfl, hinit, rfl, ?_,
          fun c _ => rfl, fun _ _ => rfl⟩
        rw [if_pos ⟨h1, rfl⟩]
      · have hd := midi_dispatch_other t fuel g data2 hon hoff hcc
        refine ⟨_, process_of_dispatch t fuel status data1 data2 hinit hd, rfl, hinit, rfl, ?_,
          fun c _ => rfl, fun _ _ => rfl⟩
        rw [if_neg hcc]

/-! ## Note-On followed by Note-Off -/

/-- Note-On with a positive velocity on channel `c`: the call succeeds and the count of
`c` becomes the old count plus one modulo 256 (`uint8_t`). -/
theorem note_on_count (t : ShiftTarget) {fuel : Nat} (g : midi_processor_state_t)
    (c : Fin 16) (note : Nat) {vel : Nat} (hinit : g.initialized = true) (hf : 32 ≤ fuel)
    (hpos : 0 < vel) (hvel : vel < 2 ^ 32) :
    ∃ r, process_midi_message t fuel g (0x90 ||| c.val) note vel = some r ∧
      r.code = RETROSAGA_SUCCESS ∧ r.state.initialized = true ∧
      r.state.active_channels c = (g.active_channels c + 1) % 256 := by
  obtain ⟨_, _, hon, hcon, _, _⟩ := status_or_channel c
  obtain ⟨sv, _, hd⟩ := midi_dispatch_note_on t g note hon hpos hf hvel
  rw [hcon] at hd
  refine ⟨_, process_of_dispatch t fuel _ note vel hinit hd, rfl, hinit, ?_⟩
  exact Function.update_same _ _ _

/-- Note-Off on channel `c`: the call succeeds and the count of `c` drops by one, staying
at 0 when it is 0. -/
theorem note_off_count (t : ShiftTarget) (fuel : Nat) (g : midi_processor_state_t)
    (c : Fin 16) (note vel : Nat) (hinit : g.initialized = true) :
    ∃ r, process_midi_message t fuel g (0x80 ||| c.val) note vel = some r ∧
      r.code = RETROSAGA_SUCCESS ∧ r.state.initialized = true ∧
      r.state.active_channels c = g.active_channels c - 1 := by
  obtain ⟨hoff, hcoff, _, _, _, _⟩ := status_or_channel c
  have hd := midi_dispatch_note_off t fuel g note vel hoff
  refine ⟨_, process_of_dispatch t fuel _ note vel hinit hd, rfl, ?_, ?_⟩
  · split <;> exact hinit
  · rw [hcoff]
    split
    · simp
    · dsimp only
      omega

/-- Below the largest `uint8_t` count, Note-On followed by Note-Off on the same channel
restores the count. -/
theorem note_on_off_restores_below_255 (t : ShiftTarget) {fuel : Nat}
    (g : midi_processor_state_t) (c : Fin 16) (note vel2 : Nat) {vel : Nat}
    (hinit : g.initialized = true) (hf : 32 ≤ fuel) (hpos : 0 < vel) (hvel : vel < 2 ^ 32)
    (hlt : g.active_channels c < 255) :
    ∃ r1 r2, process_midi_message t fuel g (0x90 ||| c.val) note vel = some r1 ∧
      process_midi_message t fuel r1.state (0x80 ||| c.val) note vel2 = some r2 ∧
      r2.state.active_channels c = g.active_channels c := by
  obtain ⟨r1, h1, _, hi1, hc1⟩ := note_on_count t g c note hinit hf hpos hvel
  obtain ⟨r2, h2, _, _, hc2⟩ := note_off_count t fuel r1.state c note vel2 hi1
  exact ⟨r1, r2, h1, h2, by rw [hc2, hc1]; omega⟩

/-- Repeated Note-On messages on channel `c` add to its count modulo 256. -/
theorem note_on_repeated (t : ShiftTarget) {fuel : Nat} (c : Fin 16) (note : Nat) {vel : Nat}
    (hf : 32 ≤ fuel) (hpos : 0 < vel) (hvel : vel < 2 ^ 32) :
    ∀ (n : Nat) (g : midi_processor_state_t), g.initialized = true →
      g.active_channels c < 256 →
      ∃ g1, process_midi_messages t fuel g (List.replicate n (0x90 ||| c.val, note, vel))
          = some g1 ∧ g1.initialized = true ∧
        g1.active_channels c = (g.active_channels c + n) % 256 := by
  intro n
  induction n with
  | zero =>
    intro g hinit hlt
    exact ⟨g, rfl, hinit, by omega⟩
  | succ n ih =>
    intro g hinit hlt
    obtain ⟨r, hr, _, hri, hrc⟩ := note_on_count t g c note hinit hf hpos hvel
    obtain ⟨g1, hg1, hgi, hgc⟩ := ih r.state hri (by rw [hrc]; omega)
    refine ⟨g1, by simp [List.replicate, process_midi_messages, hr, hg1], hgi, ?_⟩
    rw [hgc, hrc]
    omega

/-- C14: from a freshly initialized processor, 255 Note-On messages on channel 0 are all
processed and bring its count to 255; the next Note-On (`0x90, 60, 100`) succeeds and
wraps the `uint8_t` count to 0, and the Note-Off that follows (`0x80, 60, 0`) succeeds and
leaves it at 0, not at the 255 it was before the two messages. -/
theorem note_on_off_wraps_at_255 :
    ∃ g255 r1 r2,
      process_midi_messages mask5_target 32 (midi_processing_init g_midi_state).2
        (List.replicate 255 (0x90, 60, 100)) = some g255 ∧
      g255.initialized = true ∧ g255.active_channels 0 = 255 ∧
      process_midi_message mask5_target 32 g255 0x90 60 100 = some r1 ∧
      r1.code = RETROSAGA_SUCCESS ∧ r1.state.active_channels 0 = 0 ∧
      process_midi_message mask5_target 32 r1.state 0x80 60 0 = some r2 ∧
      r2.code = RETROSAGA_SUCCESS ∧ r2.state.active_channels 0 = 0 := by
  obtain ⟨g255, hg, hgi, hgc⟩ := note_on_repeated mask5_target 0 60
    (show 32 ≤ 32 by norm_num) (show 0 < 100 by norm_num) (by norm_num) 255 (midi_processing_init g_midi_state).2 rfl
    (by decide)
  obtain ⟨r1, h1, hs1, hi1, hc1⟩ := note_on_count mask5_target g255 0 60 hgi
    (show 32 ≤ 32 by norm_num) (show 0 < 100 by norm_num) (by norm_num)
  obtain ⟨r2, h2, hs2, _, hc2⟩ := note_off_count mask5_target 32 r1.state 0 60 0 hi1
  have hinit0 : (midi_processing_init g_midi_state).2.active_channels 0 = 0 := rfl
  rw [hinit0] at hgc
  have h255 : g255.active_channels 0 = 255 := by rw [hgc]
  refine ⟨g255, r1, r2, hg, hgi, h255, h1, hs1, ?_, h2, hs2, ?_⟩
  · rw [hc1, h255]
  · rw [hc2, hc1, h255]

/-- C15: from a freshly initialized processor, `process_midi_message(0x90, 60, 127)`
succeeds, leaves channel 0 with count 1 and computes the scaled velocity 65535; then
`process_midi_message(0x80, 60, 0)` succeeds and leaves channel 0 with count 0 and the
message counter at 2. -/
theorem acceptance_scenario (t : ShiftTarget) (fuel : Nat) (hf : 32 ≤ fuel) :
    ∃ r1 r2,
      process_midi_message t fuel (midi_processing_init g_midi_state).2 0x90 60 127 = some r1 ∧
      r1.code = RETROSAGA_SUCCESS ∧ r1.state.active_channels 0 = 1 ∧
      r1.scaled_velocity = some 65535 ∧
      process_midi_message t fuel r1.state 0x80 60 0 = some r2 ∧
      r2.code = RETROSAGA_SUCCESS ∧ r2.state.active_channels 0 = 0 ∧
      r2.state.messages_processed = 2 := by
  have hsv : scale_midi_value_min_center_max t fuel 127 7 16 = some 65535 := by
    have h := scale_mcm_max_to_max t hf (s := 7) (d := 16) (by norm_num) (by norm_num)
      (by norm_num) (by norm_num)
    norm_num at h
    exact h
  obtain ⟨sv, hsv2, hd⟩ := midi_dispatch_note_on t (midi_processing_init g_midi_state).2 60
    (show 0x90 &&& 0xF0 = MIDI_NOTE_ON by decide) (show 127 > 0 by norm_num) hf (by norm_num)
  rw [hsv] at hsv2
  have hsv3 : sv = 65535 := (Option.some.inj hsv2).symm
  subst hsv3
  have h1 := process_of_dispatch t fuel 0x90 60 127
    (show (midi_processing_init g_midi_state).2.initialized = true from rfl) hd
  exact ⟨_, _, h1, rfl, rfl, rfl,
    process_of_dispatch t fuel 0x80 60 0 rfl (midi_dispatch_note_off t fuel _ 60 0 (by decide)),
    rfl, rfl, rfl⟩

theorem acceptance_scenario_witness :
    32 ≤ 32 ∧
      ∃ r1 r2,
        process_midi_message mask5_target 32 (midi_processing_init g_midi_state).2 0x90 60 127
          = some r1 ∧
        r1.code = RETROSAGA_SUCCESS ∧ r1.state.active_channels 0 = 1 ∧
        r1.scaled_velocity = some 65535 ∧
        process_midi_message mask5_target 32 r1.state 0x80 60 0 = some r2 ∧
        r2.code = RETROSAGA_SUCCESS ∧ r2.state.active_channels 0 = 0 ∧
        r2.state.messages_processed = 2 :=
  ⟨by decide, acceptance_scenario mask5_target 32 (by decide)⟩

/-! ## Channel volumes -/

theorem process_midi_messages_single (t : ShiftTarget) (fuel : Nat)
    {g : midi_processor_state_t} {status data1 data2 : Nat} {r : midi_call_t}
    (h : process_midi_message t fuel g status data1 data2 = some r) :
    process_midi_messages t fuel g [(status, data1, data2)] = some r.state := by
  simp [process_midi_messages, h]

/-- C16, as stated, fails: from a freshly initialized processor the single message
`(0xB0, 7, 200)` is processed and leaves the volume of channel 0 at `6605203 / 4194304`
(the `float` nearest to `200 / 127`), above 1. -/
theorem volume_exceeds_one :
    ∃ g1, process_midi_messages mask5_target 32 (midi_processing_init g_midi_state).2
        [(0xB0, 7, 200)] = some g1 ∧
      g1.channel_volumes 0 = 6605203 / 4194304 ∧ 1 < g1.channel_volumes 0 := by
  have hd := midi_dispatch_volume mask5_target 32 (midi_processing_init g_midi_state).2
    200 (show 0xB0 &&& 0xF0 = MIDI_CONTROL_CHANGE by decide)
  have hp := process_of_dispatch mask5_target 32 0xB0 7 200
    (show (midi_processing_init g_midi_state).2.initialized = true from rfl) hd
  refine ⟨_, process_midi_messages_single mask5_target 32 hp, ?_, ?_⟩
  · dsimp only
    rw [show midi_channel 0xB0 = 0 from by decide, Function.update_same]
    have e : (((200 : Nat) : ℚ) / 127) = 200 / 127 := by norm_num
    rw [e, round_binary32_200_div_127]
  · dsimp only
    rw [show midi_channel 0xB0 = 0 from by decide, Function.update_same]
    have e : (((200 : Nat) : ℚ) / 127) = 200 / 127 := by norm_num
    rw [e, round_binary32_200_div_127]
    norm_num

/-- One call keeps every volume within `[0, 1]` when a Control-Change 7 carries a value of
at most 127. -/
theorem process_keeps_unit_volumes (t : ShiftTarget) {fuel : Nat} (g : midi_processor_state_t)
    (status data1 : Nat) {data2 : Nat} (hinit : g.initialized = true) (hf : 32 ≤ fuel)
    (hd2 : data2 < 256)
    (hvol : status &&& 0xF0 = MIDI_CONTROL_CHANGE → data1 = 7 → data2 ≤ 127)
    (hg : ∀ c, 0 ≤ g.channel_volumes c ∧ g.channel_volumes c ≤ 1) :
    ∃ r, process_midi_message t fuel g status data1 data2 = some r ∧
      r.state.initialized = true ∧
      ∀ c, 0 ≤ r.state.channel_volumes c ∧ r.state.channel_volumes c ≤ 1 := by
  obtain ⟨r, hr, _, hri, _, hrv, _, _⟩ :=
    process_initialized_effect t g status data1 hinit hf (show data2 < 2 ^ 32 by omega)
  refine ⟨r, hr, hri, ?_⟩
  intro c
  rw [hrv]
  split
  · rename_i hcc
    have hle : data2 ≤ 127 := hvol hcc.1 hcc.2
    by_cases hc : c = midi_channel status
    · subst hc
      rw [Function.update_same]
      have h1 : ((data2 : ℚ)) ≤ 127 := by exact_mod_cast hle
      have h0 : (0 : ℚ) ≤ (data2 : ℚ) := by exact_mod_cast Nat.zero_le data2
      apply round_binary32_unit
      · exact div_nonneg h0 (by norm_num)
      · rw [div_le_one (by norm_num)]
        exact h1
    · rw [Function.update_noteq hc]
      exact hg c
  · exact hg c

theorem messages_keep_unit_volumes (t : ShiftTarget) {fuel : Nat} (hf : 32 ≤ fuel)
    (msgs : List (Nat × Nat × Nat)) :
    ∀ g : midi_processor_state_t, g.initialized = true →
      (∀ m ∈ msgs, m.2.2 < 256) →
      (∀ m ∈ msgs, m.1 &&& 0xF0 = MIDI_CONTROL_CHANGE → m.2.1 = 7 → m.2.2 ≤ 127) →
      (∀ c, 0 ≤ g.channel_volumes c ∧ g.channel_volumes c ≤ 1) →
      ∃ g1, process_midi_messages t fuel g msgs = some g1 ∧
        ∀ c, 0 ≤ g1.channel_volumes c ∧ g1.channel_volumes c ≤ 1 := by
  induction msgs with
  | nil =>
    intro g _ _ _ hg
    exact ⟨g, rfl, hg⟩
  | cons m rest ih =>
    intro g hinit hbyte hvol hg
    obtain ⟨status, data1, data2⟩ := m
    obtain ⟨r, hr, hri, hrv⟩ := process_keeps_unit_volumes t g status data1 hinit hf
      (hbyte (status, data1, data2) (by simp)) (hvol (status, data1, data2) (by simp)) hg
    obtain ⟨g1, hg1, hv⟩ := ih r.state hri (fun m hm => hbyte m (by simp [hm]))
      (fun m hm => hvol m (by simp [hm])) hrv
    exact ⟨g1, by simp [process_midi_messages, hr, hg1], hv⟩

/-- C16, amended: starting from initialization, any finite sequence of messages with byte
values in which every Control-Change 7 carries `data2 ≤ 127` is processed and leaves all
16 channel volumes between 0 and 1 inclusive. -/
theorem volumes_stay_in_unit_interval (t : ShiftTarget) (fuel : Nat)
    (msgs : List (Nat × Nat × Nat)) (hf : 32 ≤ fuel) (hbyte : ∀ m ∈ msgs, m.2.2 < 256)
    (hvol : ∀ m ∈ msgs, m.1 &&& 0xF0 = MIDI_CONTROL_CHANGE → m.2.1 = 7 → m.2.2 ≤ 127) :
    ∃ g1, process_midi_messages t fuel (midi_processing_init g_midi_state).2 msgs = some g1 ∧
      ∀ c : Fin 16, 0 ≤ g1.channel_volumes c ∧ g1.channel_volumes c ≤ 1 := by
  apply messages_keep_unit_volumes t hf msgs _ rfl hbyte hvol
  intro c
  show (0 : ℚ) ≤ 1 ∧ (1 : ℚ) ≤ 1
  norm_num

theorem volumes_stay_in_unit_interval_witness :
    (32 ≤ 32 ∧ (∀ m ∈ [(0x90, 60, 255), (0xB3, 7, 100), (0xB0, 8, 255)], m.2.2 < 256) ∧
      (∀ m ∈ [(0x90, 60, 255), (0xB3, 7, 100), (0xB0, 8, 255)],
        m.1 &&& 0xF0 = MIDI_CONTROL_CHANGE → m.2.1 = 7 → m.2.2 ≤ 127)) ∧
      ∃ g1, process_midi_messages mask5_target 32 (midi_processing_init g_midi_state).2
          [(0x90, 60, 255), (0xB3, 7, 100), (0xB0, 8, 255)] = some g1 ∧
        ∀ c : Fin 16, 0 ≤ g1.channel_volumes c ∧ g1.channel_volumes c ≤ 1 :=
  ⟨⟨by decide, by decide, by decide⟩,
    volumes_stay_in_unit_interval mask5_target 32
      [(0x90, 60, 255), (0xB3, 7, 100), (0xB0, 8, 255)] (by decide) (by decide) (by decide)⟩

/-- The volume a Control-Change 7 leaves on channel `c` of an initialized processor: the
call succeeds and stores the `float` quotient of `data2` by 127. -/
theorem control_change_7_volume (t : ShiftTarget) (fuel : Nat) (g : midi_processor_state_t)
    (c : Fin 16) (data2 : Nat) (hinit : g.initialized = true) :
    ∃ r, process_midi_message t fuel g (0xB0 ||| c.val) 7 data2 = some r ∧
      r.code = RETROSAGA_SUCCESS ∧
      r.state.channel_volumes c = round_binary32 ((data2 : ℚ) / 127) := by
  obtain ⟨_, _, _, _, hcc, hch⟩ := status_or_channel c
  have hd := midi_dispatch_volume t fuel g data2 hcc
  rw [hch] at hd
  exact ⟨_, process_of_dispatch t fuel _ 7 data2 hinit hd, rfl, Function.update_same _ _ _⟩

/-- C17, as stated, fails: the Control-Change `(0xB0, 7, 100)` on a freshly initialized
processor leaves the volume of channel 0 at `6605203 / 8388608`, the `float` nearest to
`100 / 127`, and not at `100 / 127`. -/
theorem control_change_7_volume_is_rounded :
    ∃ r, process_midi_message mask5_target 32 (midi_processing_init g_midi_state).2 0xB0 7 100
        = some r ∧
      r.code = RETROSAGA_SUCCESS ∧
      r.state.channel_volumes 0 = 6605203 / 8388608 ∧
      r.state.channel_volumes 0 ≠ 100 / 127 := by
  obtain ⟨r, hr, hs, hv⟩ := control_change_7_volume mask5_target 32
    (midi_processing_init g_midi_state).2 0 100 rfl
  have e : (((100 : Nat) : ℚ) / 127) = 100 / 127 := by norm_num
  rw [e, round_binary32_100_div_127] at hv
  refine ⟨r, hr, hs, hv, ?_⟩
  rw [hv]
  norm_num

/-- C17, amended: a Control-Change with controller 7 (`0xB0 | c`, `data1 = 7`) with a byte
`data2` on an initialized processor succeeds and sets the volume of channel `c` to the
`float` nearest to `data2 / 127`, which differs from `data2 / 127` by at most
`(data2 / 127) / 2^24`; the volume is exactly 1 for `data2 = 127` and exactly 0 for
`data2 = 0`. -/
theorem control_change_7_sets_volume (t : ShiftTarget) (fuel : Nat)
    (g : midi_processor_state_t) (c : Fin 16) (data2 : Nat) (hinit : g.initialized = true)
    (hbyte : data2 < 256) :
    ∃ r, process_midi_message t fuel g (0xB0 ||| c.val) 7 data2 = some r ∧
      r.code = RETROSAGA_SUCCESS ∧
      r.state.channel_volumes c = round_binary32 ((data2 : ℚ) / 127) ∧
      |r.state.channel_volumes c - (data2 : ℚ) / 127| ≤ (data2 : ℚ) / 127 / 2 ^ 24 ∧
      (data2 = 127 → r.state.channel_volumes c = 1) ∧
      (data2 = 0 → r.state.channel_volumes c = 0) := by
  obtain ⟨r, hr, hs, hv⟩ := control_change_7_volume t fuel g c data2 hinit
  refine ⟨r, hr, hs, hv, ?_, ?_, ?_⟩
  · rw [hv]
    by_cases h0 : data2 = 0
    · subst h0
      simp [round_binary32, float_round_zero]
    · have hpos : (1 : ℚ) ≤ (data2 : ℚ) := by exact_mod_cast Nat.one_le_iff_ne_zero.mpr h0
      have hq : (0 : ℚ) < (data2 : ℚ) / 127 := by positivity
      have hnorm : (2 : ℚ) ^ (-126 : Int) ≤ |(data2 : ℚ) / 127| := by
        rw [abs_of_pos hq]
        have h1 : (1 : ℚ) / 127 ≤ (data2 : ℚ) / 127 :=
          div_le_div_of_nonneg_right hpos (by norm_num)
        have h2 : (2 : ℚ) ^ (-126 : Int) ≤ 1 / 127 := by
          rw [zpow_neg, ← one_div]
          apply one_div_le_one_div_of_le (by norm_num)
          norm_num
        exact le_trans h2 h1
      have h := float_round_rel_error 24 hnorm
      rw [abs_of_pos hq] at h
      exact h
  · intro h
    subst h
    rw [hv]
    have e : (((127 : Nat) : ℚ) / 127) = 1 := by norm_num
    rw [e, round_binary32_one]
  · intro h
    subst h
    rw [hv]
    simp [round_binary32, float_round_zero]

theorem control_change_7_sets_volume_witness :
    (sample_running_state.initialized = true ∧ 127 < 256) ∧
      ∃ r, process_midi_message mask5_target 32 sample_running_state
          (0xB0 ||| (5 : Fin 16).val) 7 127 = some r ∧
        r.code = RETROSAGA_SUCCESS ∧
        r.state.channel_volumes 5 = round_binary32 (((127 : Nat) : ℚ) / 127) ∧
        |r.state.channel_volumes 5 - ((127 : Nat) : ℚ) / 127|
          ≤ ((127 : Nat) : ℚ) / 127 / 2 ^ 24 ∧
        (127 = 127 → r.state.channel_volumes 5 = 1) ∧
        (127 = 0 → r.state.channel_volumes 5 = 0) :=
  ⟨⟨rfl, by decide⟩,
    control_change_7_sets_volume mask5_target 32 sample_running_state 5 127 rfl (by decide)⟩

/-! ## Frame and message counter -/

/-- C18: a message handed to an initialized processor is addressed to channel
`status & 0x0F`; the call returns, and the counts and volumes of all other channels are
unchanged; Note-On and Note-Off change no volume; Control-Change 7 changes no count; every
other message (Control-Change with another controller, Pitch-Bend, `0xA0`, `0xC0`, `0xD0`,
`0xF0`, status bytes below `0x80`) changes no count and no volume. -/
theorem process_midi_message_frame (t : ShiftTarget) (fuel : Nat) (g : midi_processor_state_t)
    (status data1 data2 : Nat) (hinit : g.initialized = true) (hf : 32 ≤ fuel)
    (hd2 : data2 < 256) :
    (midi_channel status).val = status &&& 0x0F ∧
    ∃ r, process_midi_message t fuel g status data1 data2 = some r ∧
      (∀ c, c ≠ midi_channel status →
        r.state.active_channels c = g.active_channels c ∧
        r.state.channel_volumes c = g.channel_volumes c) ∧
      (status &&& 0xF0 = MIDI_NOTE_ON ∨ status &&& 0xF0 = MIDI_NOTE_OFF →
        r.state.channel_volumes = g.channel_volumes) ∧
      (status &&& 0xF0 = MIDI_CONTROL_CHANGE ∧ data1 = 7 →
        r.state.active_channels = g.active_channels ∧
        r.state.channel_volumes
          = Function.update g.channel_volumes (midi_channel status)
              (round_binary32 ((data2 : ℚ) / 127))) ∧
      (status &&& 0xF0 ≠ MIDI_NOTE_ON → status &&& 0xF0 ≠ MIDI_NOTE_OFF →
        ¬ (status &&& 0xF0 = MIDI_CONTROL_CHANGE ∧ data1 = 7) →
        r.state.active_channels = g.active_channels ∧
        r.state.channel_volumes = g.channel_volumes) := by
  refine ⟨rfl, ?_⟩
  obtain ⟨r, hr, _, _, _, hrv, hother, hcounts⟩ :=
    process_initialized_effect t g status data1 hinit hf (show data2 < 2 ^ 32 by omega)
  refine ⟨r, hr, ?_, ?_, ?_, ?_⟩
  · intro c hc
    refine ⟨hother c hc, ?_⟩
    rw [hrv]
    split
    · exact Function.update_noteq hc _ _
    · rfl
  · intro hnote
    rw [hrv, if_neg]
    rintro ⟨hcc, _⟩
    rw [hcc] at hnote
    revert hnote
    decide
  · rintro ⟨hcc, h7⟩
    refine ⟨hcounts ?_ ?_, by rw [hrv, if_pos ⟨hcc, h7⟩]⟩
    · rw [hcc]; decide
    · rw [hcc]; decide
  · intro hon hoff hcc
    exact ⟨hcounts hon hoff, by rw [hrv, if_neg hcc]⟩

theorem process_midi_message_frame_witness :
    (sample_running_state.initialized = true ∧ 32 ≤ 32 ∧ 100 < 256) ∧
      ((midi_channel 0xE2).val = 0xE2 &&& 0x0F ∧
      ∃ r, process_midi_message mask5_target 32 sample_running_state 0xE2 5 100 = some r ∧
        (∀ c, c ≠ midi_channel 0xE2 →
          r.state.active_channels c = sample_running_state.active_channels c ∧
          r.state.channel_volumes c = sample_running_state.channel_volumes c) ∧
        (0xE2 &&& 0xF0 = MIDI_NOTE_ON ∨ 0xE2 &&& 0xF0 = MIDI_NOTE_OFF →
          r.state.channel_volumes = sample_running_state.channel_volumes) ∧
        (0xE2 &&& 0xF0 = MIDI_CONTROL_CHANGE ∧ 5 = 7 →
          r.state.active_channels = sample_running_state.active_channels ∧
          r.state.channel_volumes
            = Function.update sample_running_state.channel_volumes (midi_channel 0xE2)
                (round_binary32 (((100 : Nat) : ℚ) / 127))) ∧
        (0xE2 &&& 0xF0 ≠ MIDI_NOTE_ON → 0xE2 &&& 0xF0 ≠ MIDI_NOTE_OFF →
          ¬ (0xE2 &&& 0xF0 = MIDI_CONTROL_CHANGE ∧ 5 = 7) →
          r.state.active_channels = sample_running_state.active_channels ∧
          r.state.channel_volumes = sample_running_state.channel_volumes)) :=
  ⟨⟨rfl, by decide, by decide⟩,
    process_midi_message_frame mask5_target 32 sample_running_state 0xE2 5 100 rfl (by decide)
      (by decide)⟩

/-- C19, as stated, fails: with the message counter at `2^32 - 1` a call succeeds and
leaves the counter at 0, below what it was. -/
theorem message_counter_wraps :
    counter_max_state.initialized = true ∧
    counter_max_state.messages_processed = 4294967295 ∧
    ∃ r, process_midi_message mask5_target 32 counter_max_state 0x80 60 0 = some r ∧
      r.code = RETROSAGA_SUCCESS ∧ r.state.messages_processed = 0 ∧
      r.state.messages_processed < counter_max_state.messages_processed := by
  obtain ⟨r, hr, hs, _, hmp, _⟩ := process_initialized_effect mask5_target
    counter_max_state 0x80 60 rfl (show 32 ≤ 32 by norm_num) (show 0 < 2 ^ 32 by norm_num)
  have h0 : r.state.messages_processed = 0 := by
    rw [hmp]
    decide
  refine ⟨rfl, rfl, r, hr, hs, h0, ?_⟩
  rw [h0]
  decide

/-- C19, amended: every call returns; a call that returns success, whatever the message
kind, leaves the counter at the old value plus one modulo `2^32`, that is exactly one
greater while the old value is below `2^32 - 1`; a call that does not return success
leaves the counter unchanged. -/
theorem message_counter_step (t : ShiftTarget) (fuel : Nat) (g : midi_processor_state_t)
    (status data1 data2 : Nat) (hf : 32 ≤ fuel) (hd2 : data2 < 256) :
    ∃ r, process_midi_message t fuel g status data1 data2 = some r ∧
      (r.code = RETROSAGA_SUCCESS →
        r.state.messages_processed = (g.messages_processed + 1) % 2 ^ 32 ∧
        (g.messages_processed < 2 ^ 32 - 1 →
          r.state.messages_processed = g.messages_processed + 1)) ∧
      (r.code ≠ RETROSAGA_SUCCESS → r.state.messages_processed = g.messages_processed) := by
  cases hinit : g.initialized with
  | false =>
    refine ⟨_, process_not_initialized t fuel status data1 data2 hinit, ?_, fun _ => rfl⟩
    intro h
    exact absurd h (show RETROSAGA_ERROR_NOT_INITIALIZED ≠ RETROSAGA_SUCCESS by decide)
  | true =>
    obtain ⟨r, hr, hs, _, hmp, _⟩ :=
      process_initialized_effect t g status data1 hinit hf (show data2 < 2 ^ 32 by omega)
    refine ⟨r, hr, fun _ => ⟨hmp, ?_⟩, fun h => absurd hs h⟩
    intro hlt
    rw [hmp]
    apply Nat.mod_eq_of_lt
    omega

theorem message_counter_step_witness :
    (32 ≤ 32 ∧ 0 < 256) ∧
      ∃ r, process_midi_message mask5_target 32 sample_running_state 0xF0 1 0 = some r ∧
        (r.code = RETROSAGA_SUCCESS →
          r.state.messages_processed
            = (sample_running_state.messages_processed + 1) % 2 ^ 32 ∧
          (sample_running_state.messages_processed < 2 ^ 32 - 1 →
            r.state.messages_processed = sample_running_state.messages_processed + 1)) ∧
        (r.code ≠ RETROSAGA_SUCCESS →
          r.state.messages_processed = sample_running_state.messages_processed) :=
  ⟨by decide, message_counter_step mask5_target 32 sample_running_state 0xF0 1 0 (by decide)
    (by decide)⟩

/-! ## Claims on the waveform generator -/

/-- What `generate_sine_wave` leaves in the buffer: the samples at the offsets below
`samples`, the old contents elsewhere. -/
theorem generate_sine_wave_spec (sinf : ℚ → ℚ) (M_PI sample_rate : ℚ)
    (frequency amplitude : ℚ) (buffer : float_buffer_t ℚ) (samples : Nat) :
    (generate_sine_wave sinf M_PI sample_rate frequency amplitude buffer samples).capacity
      = buffer.capacity ∧
    ∀ i, (generate_sine_wave sinf M_PI sample_rate frequency amplitude buffer samples).mem i
      = if i < samples then
          round_binary32 (amplitude * sinf (sine_argument M_PI sample_rate frequency i))
        else buffer.mem i := by
  induction samples with
  | zero => simp [generate_sine_wave]
  | succ n ih =>
    have hstep : generate_sine_wave sinf M_PI sample_rate frequency amplitude buffer (n + 1)
        = { generate_sine_wave sinf M_PI sample_rate frequency amplitude buffer n with
            mem := Function.update
              (generate_sine_wave sinf M_PI sample_rate frequency amplitude buffer n).mem n
              (round_binary32
                (amplitude * sinf (sine_argument M_PI sample_rate frequency n))) } := by
      simp [generate_sine_wave, List.range_succ, List.foldl_append]
    rw [hstep]
    refine ⟨ih.1, fun i => ?_⟩
    by_cases hi : i = n
    · subst hi
      simp
    · have hlt : i < n + 1 ↔ i < n := by omega
      simp only [Function.update_noteq hi, ih.2 i, hlt]

/-- C20, as stated, fails: an initialized generator asked for 8 samples into an array of 4
floats returns `RETROSAGA_SUCCESS`, advances the counter to 1 and assigns the offsets
`0..7`, whatever `sinf` and `M_PI` are. -/
theorem generate_waveform_ignores_capacity :
    four_float_buffer.capacity < 8 ∧
    (waveform_generator_init (g_waveform_state ℚ)).2.initialized = true ∧
    ∀ (sinf : ℚ → ℚ) (M_PI : ℚ),
      (generate_waveform sinf M_PI (waveform_generator_init (g_waveform_state ℚ)).2 440 (1 / 2)
        (some four_float_buffer) 8).1 = RETROSAGA_SUCCESS ∧
      (generate_waveform sinf M_PI (waveform_generator_init (g_waveform_state ℚ)).2 440 (1 / 2)
        (some four_float_buffer) 8).2.1.waveforms_generated = 1 ∧
      ∃ buf, (generate_waveform sinf M_PI (waveform_generator_init (g_waveform_state ℚ)).2 440
          (1 / 2) (some four_float_buffer) 8).2.2 = some buf ∧
        ∀ i, i < 8 →
          buf.mem i = round_binary32 (1 / 2 * sinf (sine_argument M_PI 44100 440 i)) := by
  refine ⟨by decide, rfl, ?_⟩
  intro sinf M_PI
  refine ⟨rfl, rfl, _, rfl, ?_⟩
  intro i hi
  have h := (generate_sine_wave_spec sinf M_PI
    (waveform_generator_init (g_waveform_state ℚ)).2.sample_rate 440 (1 / 2)
    four_float_buffer 8).2 i
  rw [if_pos hi] at h
  rw [h]
  simp [waveform_generator_init, g_waveform_state, RETROSAGA_SAMPLE_RATE]

/-- C20, amended: when the generator is not initialized or the buffer pointer is null,
`generate_waveform` returns `RETROSAGA_ERROR_INVALID_PARAM` and leaves the state (the
counter included) and the buffer as they were, whatever `samples` is. It receives no
capacity: on an initialized generator with a non-null buffer every `samples` is accepted,
the call returns `RETROSAGA_SUCCESS` and advances the counter by one modulo `2^32`. -/
theorem generate_waveform_rejects (sinf : ℚ → ℚ) (M_PI : ℚ)
    (g : waveform_generator_state_t ℚ) (frequency amplitude : ℚ)
    (buffer : Option (float_buffer_t ℚ)) (samples : Nat)
    (h : g.initialized = false ∨ buffer = none) :
    generate_waveform sinf M_PI g frequency amplitude buffer samples
      = (RETROSAGA_ERROR_INVALID_PARAM, g, buffer) ∧
    ∀ (g2 : waveform_generator_state_t ℚ) (buf : float_buffer_t ℚ) (n : Nat),
      g2.initialized = true →
        (generate_waveform sinf M_PI g2 frequency amplitude (some buf) n).1
          = RETROSAGA_SUCCESS ∧
        (generate_waveform sinf M_PI g2 frequency amplitude (some buf) n).2.1.waveforms_generated
          = (g2.waveforms_generated + 1) % 2 ^ 32 := by
  constructor
  · cases buffer with
    | none => rfl
    | some buf =>
      rcases h with h | h
      · simp [generate_waveform, h]
      · exact absurd h (by simp)
  · intro g2 buf n h2
    simp [generate_waveform, h2]

theorem generate_waveform_rejects_witness :
    ((g_waveform_state ℚ).initialized = false ∨ some four_float_buffer = none) ∧
      (generate_waveform (fun x => x) 3 (g_waveform_state ℚ) 440 (1 / 2)
          (some four_float_buffer) 8
        = (RETROSAGA_ERROR_INVALID_PARAM, g_waveform_state ℚ, some four_float_buffer) ∧
      ∀ (g2 : waveform_generator_state_t ℚ) (buf : float_buffer_t ℚ) (n : Nat),
        g2.initialized = true →
          (generate_waveform (fun x => x) 3 g2 440 (1 / 2) (some buf) n).1
            = RETROSAGA_SUCCESS ∧
          (generate_waveform (fun x => x) 3 g2 440 (1 / 2) (some buf)
              n).2.1.waveforms_generated
            = (g2.waveforms_generated + 1) % 2 ^ 32) :=
  ⟨Or.inl rfl, generate_waveform_rejects (fun x => x) 3 (g_waveform_state ℚ) 440 (1 / 2)
    (some four_float_buffer) 8 (Or.inl rfl)⟩

/-! ## Note-On with velocity 0 -/

/-- C22: on an initialized processor a Note-On with velocity 0 on channel `c` and a
Note-Off on channel `c` with any velocity `v` give the same call result: the same code
(success), the same resulting state and no scaled velocity. -/
theorem note_on_zero_is_note_off (t : ShiftTarget) (fuel : Nat) (g : midi_processor_state_t)
    (c : Fin 16) (note v : Nat) (hinit : g.initialized = true) :
    process_midi_message t fuel g (0x90 ||| c.val) note 0
      = process_midi_message t fuel g (0x80 ||| c.val) note v ∧
    ∃ r, process_midi_message t fuel g (0x90 ||| c.val) note 0 = some r ∧
      r.code = RETROSAGA_SUCCESS ∧
      r.state.active_channels c = g.active_channels c - 1 := by
  obtain ⟨hoff, hcoff, hon, hcon, _, _⟩ := status_or_channel c
  have hd_on := midi_dispatch_note_on_zero t fuel g note hon
  have hd_off := midi_dispatch_note_off t fuel g note v hoff
  rw [hcon] at hd_on
  rw [hcoff] at hd_off
  have hp_on := process_of_dispatch t fuel _ note 0 hinit hd_on
  have hp_off := process_of_dispatch t fuel _ note v hinit hd_off
  refine ⟨by rw [hp_on, hp_off], _, hp_on, rfl, ?_⟩
  split
  · simp
  · dsimp only
    omega

theorem note_on_zero_is_note_off_witness :
    sample_running_state.initialized = true ∧
      (process_midi_message mask5_target 32 sample_running_state
          (0x90 ||| (4 : Fin 16).val) 60 0
        = process_midi_message mask5_target 32 sample_running_state
          (0x80 ||| (4 : Fin 16).val) 60 64 ∧
      ∃ r, process_midi_message mask5_target 32 sample_running_state
          (0x90 ||| (4 : Fin 16).val) 60 0 = some r ∧
        r.code = RETROSAGA_SUCCESS ∧
        r.state.active_channels 4 = sample_running_state.active_channels 4 - 1) :=
  ⟨rfl, note_on_zero_is_note_off mask5_target 32 sample_running_state 4 60 64 rfl⟩

/-! ## The velocity handed to the scaler -/

/-- Inside the contract the result of `scale_midi_value_min_center_max` is below
`2^dst_bits`. -/
theorem scale_mcm_lt (t : ShiftTarget) {fuel v s d : Nat} (hf : 32 ≤ fuel)
    (hs1 : 1 ≤ s) (hs : s ≤ 32) (hd1 : 1 ≤ d) (hd : d ≤ 32) (hv : v < 2 ^ s) :
    ∃ r, scale_midi_value_min_center_max t fuel v s d = some r ∧ r < 2 ^ d := by
  by_cases hds : d ≤ s
  · refine ⟨_, scale_mcm_down t fuel v hds hs hd1, ?_⟩
    apply Nat.div_lt_of_lt_mul
    rw [← pow_add, show s - d + d = s by omega]
    exact hv
  · by_cases h1 : s = 1
    · subst h1
      refine ⟨_, scale_mcm_one_bit t fuel v (by omega), ?_⟩
      split
      · exact Nat.pos_pow_of_pos _ (by norm_num)
      · by_cases h32 : d = 32
        · subst h32
          exact sub32_lt _ _
        · rw [power_of_2_in t (show d < 32 by omega),
            sub32_one (Nat.pos_pow_of_pos _ (by norm_num)) (pow_le_u32 hd)]
          exact Nat.sub_lt (Nat.pos_pow_of_pos _ (by norm_num)) (by norm_num)
    · by_cases hc : v ≤ 2 ^ (s - 1)
      · exact ⟨_, scale_mcm_low t fuel (by omega) (by omega) hd hc,
          shifted_lt_pow (by omega) hv⟩
      · obtain ⟨x, hx, hres⟩ :=
          scale_mcm_high t hf (show 2 ≤ s by omega) (show s < d by omega) hd hv
            (show 2 ^ (s - 1) < v by omega)
        refine ⟨_, hres, ?_⟩
        have h2 : (v + 1) * 2 ^ (d - s) ≤ 2 ^ s * 2 ^ (d - s) :=
          Nat.mul_le_mul_right _ hv
        rw [← pow_add, show s + (d - s) = d by omega, Nat.add_mul, one_mul] at h2
        omega

/-- C27, as stated, fails: the Note-On `(0x90, 60, 200)` on a freshly initialized
processor succeeds, hands the value 200, which is not below `2^7`, to the scaler, and the
scaled velocity it computes is 102465, above 65535. -/
theorem note_on_velocity_outside_contract :
    ∃ r, process_midi_message mask5_target 32 (midi_processing_init g_midi_state).2 0x90 60 200
        = some r ∧
      r.code = RETROSAGA_SUCCESS ∧ r.scaled_velocity = some 102465 ∧
      scale_midi_value_min_center_max mask5_target 32 200 7 16 = some 102465 ∧
      ¬ (200 < 2 ^ 7) ∧ ¬ (102465 ≤ 65535) := by
  have hsv : scale_midi_value_min_center_max mask5_target 32 200 7 16 = some 102465 := by
    decide
  obtain ⟨sv, hsv2, hd⟩ := midi_dispatch_note_on mask5_target
    (midi_processing_init g_midi_state).2 60
    (show 0x90 &&& 0xF0 = MIDI_NOTE_ON by decide) (show 200 > 0 by norm_num)
    (show 32 ≤ 32 by norm_num) (by norm_num)
  rw [hsv] at hsv2
  have hsv3 : sv = 102465 := (Option.some.inj hsv2).symm
  subst hsv3
  exact ⟨_, process_of_dispatch mask5_target 32 0x90 60 200 rfl hd, rfl, rfl, hsv,
    by norm_num, by norm_num⟩

/-- C27, amended: for a Note-On on an initialized processor whose velocity byte is in
`1..127` the value handed to `scale_midi_value_min_center_max(data2, 7, 16)` is below `2^7`,
the call succeeds, and the scaled velocity it computes is at most 65535. -/
theorem note_on_velocity_in_contract (t : ShiftTarget) (fuel : Nat)
    (g : midi_processor_state_t) (status data1 data2 : Nat) (hinit : g.initialized = true)
    (hf : 32 ≤ fuel) (hon : status &&& 0xF0 = MIDI_NOTE_ON) (hpos : 0 < data2)
    (h127 : data2 ≤ 127) :
    data2 < 2 ^ 7 ∧
    ∃ r sv, process_midi_message t fuel g status data1 data2 = some r ∧
      r.code = RETROSAGA_SUCCESS ∧ r.scaled_velocity = some sv ∧
      scale_midi_value_min_center_max t fuel data2 7 16 = some sv ∧ sv ≤ 65535 := by
  have hlt : data2 < 2 ^ 7 := by norm_num; omega
  refine ⟨hlt, ?_⟩
  obtain ⟨r, hr, hrlt⟩ := scale_mcm_lt t hf (show 1 ≤ 7 by norm_num) (show 7 ≤ 32 by norm_num)
    (show 1 ≤ 16 by norm_num) (show 16 ≤ 32 by norm_num) hlt
  obtain ⟨sv, hsv, hd⟩ := midi_dispatch_note_on t g data1 hon hpos hf
    (show data2 < 2 ^ 32 by norm_num; omega)
  rw [hr] at hsv
  have hsv2 : sv = r := (Option.some.inj hsv).symm
  subst hsv2
  refine ⟨_, sv, process_of_dispatch t fuel status data1 data2 hinit hd, rfl, rfl, hr, ?_⟩
  norm_num at hrlt
  omega

theorem note_on_velocity_in_contract_witness :
    (sample_running_state.initialized = true ∧ 32 ≤ 32 ∧ 0x95 &&& 0xF0 = MIDI_NOTE_ON ∧
      0 < 100 ∧ 100 ≤ 127) ∧
      (100 < 2 ^ 7 ∧
      ∃ r sv, process_midi_message mask5_target 32 sample_running_state 0x95 60 100 = some r ∧
        r.code = RETROSAGA_SUCCESS ∧ r.scaled_velocity = some sv ∧
        scale_midi_value_min_center_max mask5_target 32 100 7 16 = some sv ∧ sv ≤ 65535) :=
  ⟨⟨rfl, by decide, by decide, by decide, by decide⟩,
    note_on_velocity_in_contract mask5_target 32 sample_running_state 0x95 60 100 rfl
      (by decide) (by decide) (by decide) (by decide)⟩

/-! ## `scale_midi_value` -/

/-- C28, as stated, fails: `scale_midi_value(0x80000000, 32, 32)` is `-2147483648`, while
`scale_midi_value_min_center_max(0x80000000, 32, 32)` is `2147483648`. -/
theorem scale_midi_value_negative :
    scale_midi_value mask5_target 32 2147483648 32 32 = some (-2147483648) ∧
    scale_midi_value_min_center_max mask5_target 32 2147483648 32 32 = some 2147483648 := by
  constructor <;> decide

/-- C28, amended: for widths in `1..32` and `value < 2^src_bits`, `scale_midi_value`
returns the result `r` of `scale_midi_value_min_center_max` read as an `int`: for
`r < 2^31`, which holds whenever `dst_bits ≤ 31`, it is non-negative and numerically
equal to `r`; for `r ≥ 2^31` (only with `dst_bits = 32`) it is the negative number
`r - 2^32`. -/
theorem scale_midi_value_as_int (t : ShiftTarget) (fuel v s d : Nat) (hf : 32 ≤ fuel)
    (hs1 : 1 ≤ s) (hs : s ≤ 32) (hd1 : 1 ≤ d) (hd : d ≤ 32) (hv : v < 2 ^ s) :
    ∃ (r : Nat) (z : Int), scale_midi_value_min_center_max t fuel v s d = some r ∧
      scale_midi_value t fuel v s d = some z ∧
      (r < 2 ^ 31 → 0 ≤ z ∧ z = (r : Int)) ∧
      (2 ^ 31 ≤ r → z < 0 ∧ z = (r : Int) - 2 ^ 32) ∧
      (d ≤ 31 → r < 2 ^ 31) := by
  obtain ⟨r, hr, hlt⟩ := scale_mcm_lt t hf hs1 hs hd1 hd hv
  have hr32 : r < 2 ^ 32 := lt_of_lt_of_le hlt (pow_le_u32 hd)
  refine ⟨r, to_int32 r, hr, by simp [scale_midi_value, hr], ?_, ?_, ?_⟩
  · intro h
    rw [to_int32, if_pos h]
    exact ⟨Int.ofNat_nonneg r, rfl⟩
  · intro h
    have h2 : ¬ (r < 2 ^ 31) := by omega
    rw [to_int32, if_neg h2]
    refine ⟨?_, rfl⟩
    have : (r : Int) < 2 ^ 32 := by exact_mod_cast hr32
    omega
  · intro h31
    exact lt_of_lt_of_le hlt (Nat.pow_le_pow_right (by norm_num) h31)

theorem scale_midi_value_as_int_witness :
    (32 ≤ 32 ∧ 1 ≤ 7 ∧ 7 ≤ 32 ∧ 1 ≤ 16 ∧ 16 ≤ 32 ∧ 127 < 2 ^ 7) ∧
      ∃ (r : Nat) (z : Int),
        scale_midi_value_min_center_max mask5_target 32 127 7 16 = some r ∧
        scale_midi_value mask5_target 32 127 7 16 = some z ∧
        (r < 2 ^ 31 → 0 ≤ z ∧ z = (r : Int)) ∧
        (2 ^ 31 ≤ r → z < 0 ∧ z = (r : Int) - 2 ^ 32) ∧
        (16 ≤ 31 → r < 2 ^ 31) :=
  ⟨by decide, scale_midi_value_as_int mask5_target 32 127 7 16 (by decide) (by decide)
    (by decide) (by decide) (by decide) (by decide)⟩

/-! ## Upscaling and scaling back -/

/-- Upscaling with `scale_midi_value_min_center_max` and scaling the result back gives the
value again, for every `1 ≤ src_bits ≤ dst_bits ≤ 32` other than `src_bits = 1`,
`dst_bits = 32`, on every target. -/
theorem scale_mcm_round_trip (t : ShiftTarget) {fuel v s d : Nat} (hf : 32 ≤ fuel)
    (hs1 : 1 ≤ s) (hsd : s ≤ d) (hd : d ≤ 32) (hv : v < 2 ^ s) (hne : ¬ (s = 1 ∧ d = 32)) :
    ∃ r, scale_midi_value_min_center_max t fuel v s d = some r ∧
      scale_midi_value_min_center_max t fuel r d s = some v := by
  have hpos : 0 < 2 ^ (d - s) := Nat.pos_pow_of_pos _ (by norm_num)
  by_cases heq : s = d
  · subst heq
    refine ⟨v, ?_, ?_⟩ <;>
    · rw [scale_mcm_down t fuel v (le_refl s) hd hs1]
      simp
  · have hlt : s < d := by omega
    by_cases h1 : s = 1
    · subst h1
      have hd31 : d < 32 := by omega
      rw [scale_mcm_one_bit t fuel v hlt, power_of_2_in t hd31,
        sub32_one (Nat.pos_pow_of_pos _ (by norm_num)) (pow_le_u32 hd)]
      refine ⟨_, rfl, ?_⟩
      rw [scale_mcm_down t fuel _ hsd hd (le_refl 1)]
      have hv2 : v = 0 ∨ v = 1 := by omega
      rcases hv2 with h0 | h1
      · subst h0
        simp
      · subst h1
        simp only [if_neg (show ¬ (1 = 0) by decide)]
        congr 1
        have hp : 2 ^ d = 2 * 2 ^ (d - 1) := by
          rw [← pow_succ', show d - 1 + 1 = d by omega]
        have hq : 0 < 2 ^ (d - 1) := Nat.pos_pow_of_pos _ (by norm_num)
        apply Nat.div_eq_of_lt_le <;> omega
    · have hs2 : 2 ≤ s := by omega
      by_cases hc : v ≤ 2 ^ (s - 1)
      · refine ⟨_, scale_mcm_low t fuel hs2 hlt hd hc, ?_⟩
        rw [scale_mcm_down t fuel _ hsd hd hs1, Nat.mul_div_cancel _ hpos]
      · obtain ⟨x, hx, hres⟩ :=
          scale_mcm_high t hf hs2 hlt hd hv (show 2 ^ (s - 1) < v by omega)
        refine ⟨_, hres, ?_⟩
        rw [scale_mcm_down t fuel _ hsd hd hs1]
        congr 1
        rw [Nat.add_comm, Nat.add_mul_div_right _ _ hpos, Nat.div_eq_of_lt hx, Nat.zero_add]

/-- C25: at `value = 1`, `src_bits = 1`, `dst_bits = 32`, on a target that takes a shift
count modulo 32, the upscale returns `(1 << 32) - 1 = 0` and scaling 0 back from 32 bits to
1 bit returns 0, not the value 1. -/
theorem scale_mcm_round_trip_breaks_at_1_32 :
    scale_midi_value_min_center_max mask5_target 32 1 1 32 = some 0 ∧
    scale_midi_value_min_center_max mask5_target 32 0 32 1 = some 0 ∧
    ((scale_midi_value_min_center_max mask5_target 32 1 1 32).bind
      (fun r => scale_midi_value_min_center_max mask5_target 32 r 32 1)) ≠ some 1 := by
  refine ⟨by decide, by decide, by decide⟩

/-! ## `scale_midi_value_zero_extension` between equal widths -/

/-- C26: between equal widths `w < 32` the code computes the half-range as `1 << -1`, a
shift with a count outside `0..31`, and returns the smaller of `value` plus what the target
yields for that shift (modulo `2^32`) and `2^w - 1`. On a target that takes the count
modulo 32 the half is `2^31` and `scale_midi_value_zero_extension(5, 8, 8)` is 255, not 5;
only where the shift yields 0 is the value returned unchanged. -/
theorem zero_ext_equal_widths_depends_on_shift :
    (∀ (t : ShiftTarget) (v w : Nat), 1 ≤ w → w < 32 →
      scale_midi_value_zero_extension t v w w
        = min (add32 v (t.shl_oob 1 (-1) % 2 ^ 32)) (2 ^ w - 1)) ∧
    scale_midi_value_zero_extension mask5_target 5 8 8 = 255 ∧
    scale_midi_value_zero_extension flush_target 5 8 8 = 5 := by
  refine ⟨?_, by decide, by decide⟩
  intro t v w hw1 hw
  have hmax : 2 ^ w < 2 ^ 32 := Nat.pow_lt_pow_right (by norm_num) hw
  have hhalf : shl32 t 1 (((0 : Nat) : Int) - 1) = t.shl_oob 1 (-1) % 2 ^ 32 := by
    simp [shl32]
  simp only [scale_midi_value_zero_extension, ge_iff_le, le_refl, if_true, Nat.sub_self, hhalf,
    shr32_nat t _ (show 0 < 32 by norm_num), pow_zero, Nat.div_one,
    shl32_nat t 1 hw, one_mul, Nat.mod_eq_of_lt hmax,
    sub32_one (Nat.pos_pow_of_pos w (by norm_num)) (le_of_lt hmax)]
  split
  · rw [min_eq_right]; omega
  · rw [min_eq_left]; omega

/-! ## Sine samples -/

/-- A positive normal `x` is rounded to within the relative error `2^-p`. -/
theorem float_round_within (p : Nat) {emin : Int} {x : ℚ} (hpos : 0 < x)
    (hnorm : (2 : ℚ) ^ emin ≤ x) :
    x * (1 - 1 / (2 : ℚ) ^ p) ≤ float_round p emin x ∧
      float_round p emin x ≤ x * (1 + 1 / (2 : ℚ) ^ p) := by
  have h := float_round_rel_error p (show (2 : ℚ) ^ emin ≤ |x| by rwa [abs_of_pos hpos])
  rw [abs_of_pos hpos, abs_le] at h
  constructor
  · have : x * (1 - 1 / (2 : ℚ) ^ p) = x - x / (2 : ℚ) ^ p := by ring
    rw [this]
    linarith [h.1]
  · have : x * (1 + 1 / (2 : ℚ) ^ p) = x + x / (2 : ℚ) ^ p := by ring
    rw [this]
    linarith [h.2]

/-- Rounding a value that lies between `l * x` and `h * x` widens the factors by the
relative error `2^-p`. -/
theorem within_round (p : Nat) (emin : Int) {x y l h : ℚ} (hy : l * x ≤ y ∧ y ≤ h * x)
    (hlx : 0 < l * x) (hnorm : (2 : ℚ) ^ emin ≤ l * x) :
    l * (1 - 1 / (2 : ℚ) ^ p) * x ≤ float_round p emin y ∧
      float_round p emin y ≤ h * (1 + 1 / (2 : ℚ) ^ p) * x := by
  have hypos : 0 < y := lt_of_lt_of_le hlx hy.1
  have hr := float_round_within p hypos (le_trans hnorm hy.1)
  have hpow : (0 : ℚ) < (2 : ℚ) ^ p := pow_pos (by norm_num) p
  have h1 : (1 : ℚ) / (2 : ℚ) ^ p ≤ 1 := by
    rw [div_le_one hpow]
    exact one_le_pow₀ (by norm_num)
  have h2 : (0 : ℚ) ≤ 1 / (2 : ℚ) ^ p := le_of_lt (div_pos one_pos hpow)
  constructor
  · calc l * (1 - 1 / (2 : ℚ) ^ p) * x = l * x * (1 - 1 / (2 : ℚ) ^ p) := by ring
      _ ≤ y * (1 - 1 / (2 : ℚ) ^ p) := mul_le_mul_of_nonneg_right hy.1 (by linarith)
      _ ≤ float_round p emin y := hr.1
  · calc float_round p emin y ≤ y * (1 + 1 / (2 : ℚ) ^ p) := hr.2
      _ ≤ h * x * (1 + 1 / (2 : ℚ) ^ p) := mul_le_mul_of_nonneg_right hy.2 (by linarith)
      _ = h * (1 + 1 / (2 : ℚ) ^ p) * x := by ring

/-- The product of two values lying between multiples of `x` and of `y`. -/
theorem within_mul {x x1 y y1 l1 h1 l2 h2 : ℚ} (hx : l1 * x ≤ x1 ∧ x1 ≤ h1 * x)
    (hy : l2 * y ≤ y1 ∧ y1 ≤ h2 * y) (hlx : 0 ≤ l1 * x) (hly : 0 ≤ l2 * y) :
    l1 * l2 * (x * y) ≤ x1 * y1 ∧ x1 * y1 ≤ h1 * h2 * (x * y) := by
  have hx1 : 0 ≤ x1 := le_trans hlx hx.1
  have hy1 : 0 ≤ y1 := le_trans hly hy.1
  constructor
  · calc l1 * l2 * (x * y) = l1 * x * (l2 * y) := by ring
      _ ≤ x1 * y1 := mul_le_mul hx.1 hy.1 hly hx1
  · calc x1 * y1 ≤ h1 * x * (h2 * y) := mul_le_mul hx.2 hy.2 hy1 (le_trans hx1 hx.2)
      _ = h1 * h2 * (x * y) := by ring

/-- The argument of `sinf` for sample 0 is 0. -/
theorem sine_argument_zero (M_PI sample_rate frequency : ℚ) :
    sine_argument M_PI sample_rate frequency 0 = 0 := by
  simp [sine_argument, round_binary32, round_binary64, float_round_zero]

/-- The time `t = (float)i / 44100` of sample `i ≥ 1`, two `float` roundings away from
`i / 44100`. -/
theorem sine_time_within (i : Nat) (hi : 0 < i) :
    (1 - 1 / (2 : ℚ) ^ 24) * (1 - 1 / (2 : ℚ) ^ 24) * ((i : ℚ) / 44100)
        ≤ float_round 24 (-126) (float_round 24 (-126) (i : ℚ) / 44100) ∧
      float_round 24 (-126) (float_round 24 (-126) (i : ℚ) / 44100)
        ≤ (1 + 1 / (2 : ℚ) ^ 24) * (1 + 1 / (2 : ℚ) ^ 24) * ((i : ℚ) / 44100) := by
  have hi1 : (1 : ℚ) ≤ (i : ℚ) := by exact_mod_cast hi
  have hX : (1 : ℚ) / 44100 ≤ (i : ℚ) / 44100 :=
    div_le_div_of_nonneg_right hi1 (by norm_num)
  have ha := within_round 24 (-126)
    (show 1 * (i : ℚ) ≤ (i : ℚ) ∧ (i : ℚ) ≤ 1 * (i : ℚ) by simp)
    (by linarith) (le_trans (by norm_num) (show (1 : ℚ) ≤ 1 * (i : ℚ) by linarith))
  have hq : 1 * (1 - 1 / (2 : ℚ) ^ 24) * ((i : ℚ) / 44100)
        ≤ float_round 24 (-126) (i : ℚ) / 44100 ∧
      float_round 24 (-126) (i : ℚ) / 44100
        ≤ 1 * (1 + 1 / (2 : ℚ) ^ 24) * ((i : ℚ) / 44100) := by
    constructor
    · rw [← mul_div_assoc]
      exact div_le_div_of_nonneg_right ha.1 (by norm_num)
    · rw [← mul_div_assoc]
      exact div_le_div_of_nonneg_right ha.2 (by norm_num)
  have hlq : (1 : ℚ) / 2 * (1 / 44100) ≤ 1 * (1 - 1 / (2 : ℚ) ^ 24) * ((i : ℚ) / 44100) :=
    mul_le_mul (by norm_num) hX (by norm_num) (by norm_num)
  have hb := within_round 24 (-126) hq (by linarith) (le_trans (by norm_num) hlq)
  simp only [one_mul] at hb
  exact hb

/-- The factor `2.0f * M_PI * frequency` at 440 Hz, two `double` roundings away from
`2 * M_PI * 440`. -/
theorem sine_omega_within (M_PI : ℚ) (hpi : 1 ≤ M_PI) :
    (1 - 1 / (2 : ℚ) ^ 53) * (1 - 1 / (2 : ℚ) ^ 53) * (2 * M_PI * 440)
        ≤ float_round 53 (-1022) (float_round 53 (-1022) (2 * M_PI) * 440) ∧
      float_round 53 (-1022) (float_round 53 (-1022) (2 * M_PI) * 440)
        ≤ (1 + 1 / (2 : ℚ) ^ 53) * (1 + 1 / (2 : ℚ) ^ 53) * (2 * M_PI * 440) := by
  have hc := within_round 53 (-1022)
    (show 1 * (2 * M_PI) ≤ 2 * M_PI ∧ 2 * M_PI ≤ 1 * (2 * M_PI) by simp)
    (by linarith) (le_trans (by norm_num) (show (1 : ℚ) ≤ 1 * (2 * M_PI) by linarith))
  have hc440 := within_mul hc
    (show 1 * (440 : ℚ) ≤ 440 ∧ (440 : ℚ) ≤ 1 * 440 by norm_num)
    (by nlinarith) (by norm_num)
  have hc1 : (1 : ℚ) ≤ 1 * (1 - 1 / (2 : ℚ) ^ 53) * 1 * (2 * M_PI * 440) := by
    have : (1 : ℚ) * (1 - 1 / (2 : ℚ) ^ 53) * 1 * (2 * M_PI * 440)
        = (880 * (1 - 1 / (2 : ℚ) ^ 53)) * M_PI := by ring
    rw [this]
    have h880 : (1 : ℚ) ≤ 880 * (1 - 1 / (2 : ℚ) ^ 53) := by norm_num
    calc (1 : ℚ) = 1 * 1 := by norm_num
      _ ≤ (880 * (1 - 1 / (2 : ℚ) ^ 53)) * M_PI :=
        mul_le_mul h880 hpi (by norm_num) (by linarith)
  have hd := within_round 53 (-1022) hc440 (by linarith) (le_trans (by norm_num) hc1)
  simp only [one_mul, mul_one] at hd
  exact hd

/-- The argument handed to `sinf` for sample `i` at 440 Hz and 44100 samples per second is
within the relative error `2^-22` of `2 * M_PI * 440 * (i / 44100)`. -/
theorem sine_argument_error (M_PI : ℚ) (hpi : 1 ≤ M_PI) (i : Nat) :
    |sine_argument M_PI 44100 440 i - 2 * M_PI * 440 * ((i : ℚ) / 44100)|
      ≤ 2 * M_PI * 440 * ((i : ℚ) / 44100) / 2 ^ 22 := by
  rcases Nat.eq_zero_or_pos i with hi | hi
  · subst hi
    rw [sine_argument_zero]
    simp
  have hi1 : (1 : ℚ) ≤ (i : ℚ) := by exact_mod_cast hi
  have hX : (1 : ℚ) / 44100 ≤ (i : ℚ) / 44100 :=
    div_le_div_of_nonneg_right hi1 (by norm_num)
  have hW : (880 : ℚ) ≤ 2 * M_PI * 440 := by linarith
  have hb := sine_time_within i hi
  have hd := sine_omega_within M_PI hpi
  have hd1 : (1 : ℚ) / 2 ≤ (1 - 1 / (2 : ℚ) ^ 53) * (1 - 1 / (2 : ℚ) ^ 53) * (2 * M_PI * 440) :=
    le_trans (by norm_num)
      (mul_le_mul_of_nonneg_left hW
        (show (0 : ℚ) ≤ (1 - 1 / (2 : ℚ) ^ 53) * (1 - 1 / (2 : ℚ) ^ 53) by norm_num))
  have hb1 : (1 : ℚ) / 4 * (1 / 44100)
      ≤ (1 - 1 / (2 : ℚ) ^ 24) * (1 - 1 / (2 : ℚ) ^ 24) * ((i : ℚ) / 44100) :=
    mul_le_mul (by norm_num) hX (by norm_num) (by norm_num)
  have hdb := within_mul hd hb (le_trans (by norm_num) hd1) (le_trans (by norm_num) hb1)
  have hdb1 : (1 : ℚ) / 2 * (1 / 4 * (1 / 44100))
      ≤ (1 - 1 / (2 : ℚ) ^ 53) * (1 - 1 / (2 : ℚ) ^ 53)
          * ((1 - 1 / (2 : ℚ) ^ 24) * (1 - 1 / (2 : ℚ) ^ 24))
          * (2 * M_PI * 440 * ((i : ℚ) / 44100)) := by
    have : (1 - 1 / (2 : ℚ) ^ 53) * (1 - 1 / (2 : ℚ) ^ 53)
          * ((1 - 1 / (2 : ℚ) ^ 24) * (1 - 1 / (2 : ℚ) ^ 24))
          * (2 * M_PI * 440 * ((i : ℚ) / 44100))
        = ((1 - 1 / (2 : ℚ) ^ 53) * (1 - 1 / (2 : ℚ) ^ 53) * (2 * M_PI * 440))
          * ((1 - 1 / (2 : ℚ) ^ 24) * (1 - 1 / (2 : ℚ) ^ 24) * ((i : ℚ) / 44100)) := by
      ring
    rw [this]
    exact mul_le_mul hd1 hb1 (by norm_num) (le_trans (by norm_num) hd1)
  have he := within_round 53 (-1022) hdb (lt_of_lt_of_le (by norm_num) hdb1)
    (le_trans (by norm_num) hdb1)
  have he1 : (1 : ℚ) / 2 * (1 / 2 * (1 / 4 * (1 / 44100)))
      ≤ (1 - 1 / (2 : ℚ) ^ 53) * (1 - 1 / (2 : ℚ) ^ 53)
          * ((1 - 1 / (2 : ℚ) ^ 24) * (1 - 1 / (2 : ℚ) ^ 24))
          * (1 - 1 / (2 : ℚ) ^ 53)
          * (2 * M_PI * 440 * ((i : ℚ) / 44100)) := by
    have : (1 - 1 / (2 : ℚ) ^ 53) * (1 - 1 / (2 : ℚ) ^ 53)
          * ((1 - 1 / (2 : ℚ) ^ 24) * (1 - 1 / (2 : ℚ) ^ 24))
          * (1 - 1 / (2 : ℚ) ^ 53)
          * (2 * M_PI * 440 * ((i : ℚ) / 44100))
        = (1 - 1 / (2 : ℚ) ^ 53)
          * ((1 - 1 / (2 : ℚ) ^ 53) * (1 - 1 / (2 : ℚ) ^ 53)
            * ((1 - 1 / (2 : ℚ) ^ 24) * (1 - 1 / (2 : ℚ) ^ 24))
            * (2 * M_PI * 440 * ((i : ℚ) / 44100))) := by
      ring
    rw [this]
    exact mul_le_mul (by norm_num) hdb1 (by norm_num) (by norm_num)
  have hf := within_round 24 (-126) he (lt_of_lt_of_le (by norm_num) he1)
    (le_trans (by norm_num) he1)
  have hXpos : (0 : ℚ) ≤ 2 * M_PI * 440 * ((i : ℚ) / 44100) :=
    mul_nonneg (by linarith) (by linarith)
  have hlo : (1 : ℚ) - 1 / 2 ^ 22
      ≤ (1 - 1 / (2 : ℚ) ^ 53) * (1 - 1 / (2 : ℚ) ^ 53)
          * ((1 - 1 / (2 : ℚ) ^ 24) * (1 - 1 / (2 : ℚ) ^ 24))
          * (1 - 1 / (2 : ℚ) ^ 53) * (1 - 1 / (2 : ℚ) ^ 24) := by norm_num
  have hhi : (1 + 1 / (2 : ℚ) ^ 53) * (1 + 1 / (2 : ℚ) ^ 53)
          * ((1 + 1 / (2 : ℚ) ^ 24) * (1 + 1 / (2 : ℚ) ^ 24))
          * (1 + 1 / (2 : ℚ) ^ 53) * (1 + 1 / (2 : ℚ) ^ 24)
      ≤ 1 + 1 / 2 ^ 22 := by norm_num
  have h1 := le_trans (mul_le_mul_of_nonneg_right hlo hXpos) hf.1
  have h2 := le_trans hf.2 (mul_le_mul_of_nonneg_right hhi hXpos)
  have hfold : sine_argument M_PI 44100 440 i
      = float_round 24 (-126)
          (float_round 53 (-1022)
            (float_round 53 (-1022) (float_round 53 (-1022) (2 * M_PI) * 440)
              * float_round 24 (-126) (float_round 24 (-126) (i : ℚ) / 44100))) := by
    unfold sine_argument round_binary32 round_binary64
    rfl
  rw [hfold]
  generalize float_round 24 (-126)
      (float_round 53 (-1022)
        (float_round 53 (-1022) (float_round 53 (-1022) (2 * M_PI) * 440)
          * float_round 24 (-126) (float_round 24 (-126) (i : ℚ) / 44100))) = y at h1 h2
  generalize 2 * M_PI * 440 * ((i : ℚ) / 44100) = x at h1 h2
  rw [abs_le]
  constructor <;> linarith

/-- The value `0.5 * sin(2 * pi * 440 * 735 / 44100)` is `sqrt 3 / 4`, which no rational
number equals: `440 * 735 / 44100 = 22 / 3`, seven turns and a third. -/
theorem sine_sample_735_irrational (q : ℚ) :
    (q : ℝ) ≠ 1 / 2 * Real.sin (2 * Real.pi * 440 * (735 / 44100)) := by
  have hangle : 2 * Real.pi * 440 * (735 / 44100)
      = (Real.pi - Real.pi / 3) + (7 : ℕ) * (2 * Real.pi) := by
    push_cast
    ring
  rw [hangle, Real.sin_add_nat_mul_two_pi, Real.sin_pi_sub, Real.sin_pi_div_three]
  have h3 : Irrational (Real.sqrt 3) := by
    have h := Nat.prime_three.irrational_sqrt
    simpa using h
  have h4 : Irrational (1 / 2 * (Real.sqrt 3 / 2)) := by
    have h5 : Irrational (Real.sqrt 3 / (2 : ℕ)) := h3.div_nat (by norm_num)
    have h6 : Irrational (((1 / 2 : ℚ) : ℝ) * (Real.sqrt 3 / (2 : ℕ))) :=
      h5.rat_mul (by norm_num)
    simpa using h6
  exact fun h => h4.ne_rat q h.symm

/-- C21, as stated, fails: on the generator left by `waveform_generator_init`,
`generate_waveform(440.0, 0.5, buffer, 736)` into an array of 1024 floats stores at offset
735 a float, a rational number, whatever `sinf` and `M_PI` are, while
`0.5 * sin(2 * pi * 440 * 735 / 44100)` is `sqrt 3 / 4`, which is irrational: the stored
sample is not the stated value. -/
theorem generate_waveform_sample_not_exact :
    (waveform_generator_init (g_waveform_state ℚ)).2.initialized = true ∧
    736 ≤ frame_float_buffer.capacity ∧
    ∀ (sinf : ℚ → ℚ) (M_PI : ℚ),
      (generate_waveform sinf M_PI (waveform_generator_init (g_waveform_state ℚ)).2 440 (1 / 2)
        (some frame_float_buffer) 736).1 = RETROSAGA_SUCCESS ∧
      ∃ buf, (generate_waveform sinf M_PI (waveform_generator_init (g_waveform_state ℚ)).2 440
          (1 / 2) (some frame_float_buffer) 736).2.2 = some buf ∧
        ((buf.mem 735 : ℚ) : ℝ)
          ≠ 1 / 2 * Real.sin (2 * Real.pi * 440 * (735 / 44100)) := by
  refine ⟨rfl, by decide, ?_⟩
  intro sinf M_PI
  exact ⟨rfl, _, rfl, sine_sample_735_irrational _⟩

/-- C21, amended: on an initialized generator (sample rate 44100) with a non-null buffer,
`generate_waveform(440.0, 0.5, buffer, N)` succeeds for every `N`, writes exactly the
offsets `0..N-1` (nothing for `N = 0`), sample `i` being the `float` nearest to
`0.5 * sinf(x i)` where `x i` is the `float` argument computed for sample `i`; each sample
lies within `[-0.5, 0.5]`, and sample 0 is 0; this for every `sinf` with values in
`[-1, 1]` and `sinf 0 = 0`, and every value of `M_PI`. For `M_PI ≥ 1` the argument `x i` is
within the relative error `2^-22` of `2 * M_PI * 440 * (i / 44100)`. The state left by
`waveform_generator_init` is such a generator. -/
theorem generate_waveform_sine_440 (sinf : ℚ → ℚ) (M_PI : ℚ)
    (g : waveform_generator_state_t ℚ) (buf : float_buffer_t ℚ) (N : Nat)
    (hsin : ∀ x, -1 ≤ sinf x ∧ sinf x ≤ 1) (hsin0 : sinf 0 = 0)
    (hinit : g.initialized = true) (hrate : g.sample_rate = 44100) :
    (∃ g1 buf1, generate_waveform sinf M_PI g 440 (1 / 2) (some buf) N
        = (RETROSAGA_SUCCESS, g1, some buf1) ∧
      buf1.capacity = buf.capacity ∧
      (∀ i, i < N →
        buf1.mem i = round_binary32 (1 / 2 * sinf (sine_argument M_PI 44100 440 i)) ∧
        -(1 / 2) ≤ buf1.mem i ∧ buf1.mem i ≤ 1 / 2) ∧
      (∀ i, N ≤ i → buf1.mem i = buf.mem i) ∧
      (0 < N → buf1.mem 0 = 0)) ∧
    (1 ≤ M_PI → ∀ i : Nat,
      |sine_argument M_PI 44100 440 i - 2 * M_PI * 440 * ((i : ℚ) / 44100)|
        ≤ 2 * M_PI * 440 * ((i : ℚ) / 44100) / 2 ^ 22) ∧
    (waveform_generator_init (g_waveform_state ℚ)).2.initialized = true ∧
    (waveform_generator_init (g_waveform_state ℚ)).2.sample_rate = 44100 := by
  refine ⟨?_, fun hpi i => sine_argument_error M_PI hpi i, rfl,
    by simp [waveform_generator_init, g_waveform_state, RETROSAGA_SAMPLE_RATE]⟩
  have hspec := generate_sine_wave_spec sinf M_PI g.sample_rate 440 (1 / 2) buf N
  rw [hrate] at hspec
  have hval : ∀ i, i < N →
      (generate_sine_wave sinf M_PI 44100 440 (1 / 2) buf N).mem i
        = round_binary32 (1 / 2 * sinf (sine_argument M_PI 44100 440 i)) := by
    intro i hi
    rw [hspec.2 i, if_pos hi]
  refine ⟨_, _, by simp [generate_waveform, hinit, hrate]; rfl, hspec.1, ?_, ?_, ?_⟩
  · intro i hi
    obtain ⟨hlo, hhi⟩ := hsin (sine_argument M_PI 44100 440 i)
    rw [hval i hi]
    exact ⟨rfl, round_binary32_half (by linarith) (by linarith)⟩
  · intro i hi
    rw [hspec.2 i, if_neg (by omega)]
  · intro hN
    rw [hval 0 hN, sine_argument_zero, hsin0, mul_zero]
    exact float_round_zero 24 (-126)

theorem generate_waveform_sine_440_witness :
    ((∀ x : ℚ, -1 ≤ max (-1) (min 1 x) ∧ max (-1) (min 1 x) ≤ 1) ∧
      max (-1) (min 1 (0 : ℚ)) = 0 ∧
      (waveform_generator_init (g_waveform_state ℚ)).2.initialized = true ∧
      (waveform_generator_init (g_waveform_state ℚ)).2.sample_rate = 44100) ∧
      ((∃ g1 buf1, generate_waveform (fun x => max (-1) (min 1 x))
          (884279719003555 / 281474976710656)
          (waveform_generator_init (g_waveform_state ℚ)).2 440 (1 / 2)
          (some frame_float_buffer) 64 = (RETROSAGA_SUCCESS, g1, some buf1) ∧
        buf1.capacity = frame_float_buffer.capacity ∧
        (∀ i, i < 64 →
          buf1.mem i = round_binary32 (1 / 2 * (fun x => max (-1) (min 1 x))
            (sine_argument (884279719003555 / 281474976710656) 44100 440 i)) ∧
          -(1 / 2) ≤ buf1.mem i ∧ buf1.mem i ≤ 1 / 2) ∧
        (∀ i, 64 ≤ i → buf1.mem i = frame_float_buffer.mem i) ∧
        (0 < 64 → buf1.mem 0 = 0)) ∧
      (1 ≤ (884279719003555 / 281474976710656 : ℚ) → ∀ i : Nat,
        |sine_argument (884279719003555 / 281474976710656) 44100 440 i
            - 2 * (884279719003555 / 281474976710656) * 440 * ((i : ℚ) / 44100)|
          ≤ 2 * (884279719003555 / 281474976710656) * 440 * ((i : ℚ) / 44100) / 2 ^ 22) ∧
      (waveform_generator_init (g_waveform_state ℚ)).2.initialized = true ∧
      (waveform_generator_init (g_waveform_state ℚ)).2.sample_rate = 44100) :=
  ⟨⟨fun x => ⟨le_max_left _ _, max_le (by norm_num) (min_le_left _ _)⟩, by norm_num, rfl,
      by simp [waveform_generator_init, g_waveform_state, RETROSAGA_SAMPLE_RATE]⟩,
    generate_waveform_sine_440 (fun x => max (-1) (min 1 x))
      (884279719003555 / 281474976710656)
      (waveform_generator_init (g_waveform_state ℚ)).2 frame_float_buffer 64
      (fun x => ⟨le_max_left _ _, max_le (by norm_num) (min_le_left _ _)⟩) (by norm_num) rfl
      (by simp [waveform_generator_init, g_waveform_state, RETROSAGA_SAMPLE_RATE])⟩

/-! ## Sawtooth, square and triangle samples -/

/-- A loop assigning `value i` at every offset `i` below `samples` leaves those values
there and the old contents elsewhere. -/
theorem write_loop_mem {F : Type} (value : Nat → F) (buffer : float_buffer_t F)
    (samples : Nat) :
    ∀ i, ((List.range samples).foldl
        (fun buf i => { buf with mem := Function.update buf.mem i (value i) }) buffer).mem i
      = if i < samples then value i else buffer.mem i := by
  induction samples with
  | zero => simp
  | succ n ih =>
    intro i
    rw [List.range_succ, List.foldl_append]
    by_cases hi : i = n
    · subst hi
      simp
    · have hlt : i < n + 1 ↔ i < n := by omega
      simp only [List.foldl_cons, List.foldl_nil, Function.update_noteq hi, ih i, hlt]

/-- For a non-negative argument `fmodf(x, 1)` lies in `[0, 1)`. -/
theorem fmodf_one_of_nonneg {F : Type} [LinearOrderedField F] [FloorRing F] {x : F}
    (hx : 0 ≤ x) : 0 ≤ fmodf x 1 ∧ fmodf x 1 < 1 := by
  simp only [fmodf, div_one, if_pos hx, mul_one]
  constructor
  · have := Int.floor_le x
    linarith
  · have := Int.lt_floor_add_one x
    linarith

theorem wave_phase_range {F : Type} [LinearOrderedField F] [FloorRing F]
    {sample_rate frequency : F} (i : Nat) (hf : 0 ≤ frequency) (hr : 0 < sample_rate) :
    0 ≤ wave_phase sample_rate frequency i ∧ wave_phase sample_rate frequency i < 1 := by
  apply fmodf_one_of_nonneg
  exact mul_nonneg hf (div_nonneg (Nat.cast_nonneg i) (le_of_lt hr))

theorem scaled_within {F : Type} [LinearOrderedField F] {a x : F} (ha : 0 ≤ a)
    (hlo : -1 ≤ x) (hhi : x ≤ 1) : -a ≤ a * x ∧ a * x ≤ a := by
  constructor
  · have := mul_le_mul_of_nonneg_left hlo ha
    linarith
  · have := mul_le_mul_of_nonneg_left hhi ha
    linarith

/-- With a phase in `[0, 1)` and a non-negative amplitude, the sawtooth, square and
triangle values lie within `[-amplitude, amplitude]`. -/
theorem wave_values_within {F : Type} [LinearOrderedField F] {a p : F} (ha : 0 ≤ a)
    (hp0 : 0 ≤ p) (hp1 : p < 1) :
    (-a ≤ sawtooth_value a p ∧ sawtooth_value a p ≤ a) ∧
    (-a ≤ square_value a p ∧ square_value a p ≤ a) ∧
    (-a ≤ triangle_value a p ∧ triangle_value a p ≤ a) := by
  refine ⟨?_, ?_, ?_⟩
  · exact scaled_within ha (by linarith) (by linarith)
  · unfold square_value
    split
    · exact scaled_within ha (by norm_num) (by norm_num)
    · exact scaled_within ha (by norm_num) (by norm_num)
  · unfold triangle_value
    split
    · rename_i h
      exact scaled_within ha (by linarith) (by linarith)
    · rename_i h
      have h2 : 1 / 2 ≤ p := not_lt.mp h
      exact scaled_within ha (by linarith) (by linarith)

/-- C23, as stated, fails: at sample rate 44100, frequency -11025 and amplitude 1, the
phase at sample 2 is `fmodf(-1/2, 1) = -1/2`, the sawtooth sample is -2 and the triangle
sample is -3, both below `-amplitude`. -/
theorem negative_frequency_leaves_range :
    wave_phase (44100 : ℚ) (-11025) 2 = -1 / 2 ∧
    (generate_sawtooth_wave (44100 : ℚ) (-11025) 1 four_float_buffer 4).mem 2 = -2 ∧
    (generate_triangle_wave (44100 : ℚ) (-11025) 1 four_float_buffer 4).mem 2 = -3 ∧
    (generate_sawtooth_wave (44100 : ℚ) (-11025) 1 four_float_buffer 4).mem 2 < -1 := by
  have hphase : wave_phase (44100 : ℚ) (-11025) 2 = -1 / 2 := by
    have hx : (-11025 : ℚ) * (((2 : Nat) : ℚ) / 44100) = -1 / 2 := by norm_num
    have hneg : ¬ ((0 : ℚ) ≤ -1 / 2 / 1) := by norm_num
    have hceil : Int.ceil ((-1 / 2 : ℚ) / 1) = 0 := by
      rw [Int.ceil_eq_iff]
      norm_num
    unfold wave_phase fmodf
    rw [hx, if_neg hneg, hceil]
    norm_num
  have hsaw : (generate_sawtooth_wave (44100 : ℚ) (-11025) 1 four_float_buffer 4).mem 2
      = -2 := by
    unfold generate_sawtooth_wave
    rw [write_loop_mem (fun i => sawtooth_value (1 : ℚ) (wave_phase 44100 (-11025) i)),
      if_pos (by norm_num), hphase]
    norm_num [sawtooth_value]
  have htri : (generate_triangle_wave (44100 : ℚ) (-11025) 1 four_float_buffer 4).mem 2
      = -3 := by
    unfold generate_triangle_wave
    rw [write_loop_mem (fun i => triangle_value (1 : ℚ) (wave_phase 44100 (-11025) i)),
      if_pos (by norm_num), hphase]
    norm_num [triangle_value]
  refine ⟨hphase, hsaw, htri, ?_⟩
  rw [hsaw]
  norm_num

/-- C23, amended: for every amplitude `≥ 0`, every frequency `≥ 0` (zero included), a
positive sample rate and every sample index below `samples`, the samples written by
`generate_sawtooth_wave`, `generate_square_wave` and `generate_triangle_wave` lie within
`[-amplitude, amplitude]`, the phase arithmetic being exact. -/
theorem wave_samples_within_amplitude (F : Type) [LinearOrderedField F] [FloorRing F]
    (sample_rate frequency amplitude : F) (buffer : float_buffer_t F) (samples i : Nat)
    (ha : 0 ≤ amplitude) (hf : 0 ≤ frequency) (hr : 0 < sample_rate) (hi : i < samples) :
    (-amplitude ≤ (generate_sawtooth_wave sample_rate frequency amplitude buffer samples).mem i ∧
      (generate_sawtooth_wave sample_rate frequency amplitude buffer samples).mem i
        ≤ amplitude) ∧
    (-amplitude ≤ (generate_square_wave sample_rate frequency amplitude buffer samples).mem i ∧
      (generate_square_wave sample_rate frequency amplitude buffer samples).mem i
        ≤ amplitude) ∧
    (-amplitude ≤ (generate_triangle_wave sample_rate frequency amplitude buffer samples).mem i ∧
      (generate_triangle_wave sample_rate frequency amplitude buffer samples).mem i
        ≤ amplitude) := by
  obtain ⟨hp0, hp1⟩ := wave_phase_range i hf hr
  obtain ⟨hsaw, hsq, htri⟩ := wave_values_within ha hp0 hp1
  have e1 : (generate_sawtooth_wave sample_rate frequency amplitude buffer samples).mem i
      = sawtooth_value amplitude (wave_phase sample_rate frequency i) := by
    unfold generate_sawtooth_wave
    rw [write_loop_mem (fun i => sawtooth_value amplitude (wave_phase sample_rate frequency i)),
      if_pos hi]
  have e2 : (generate_square_wave sample_rate frequency amplitude buffer samples).mem i
      = square_value amplitude (wave_phase sample_rate frequency i) := by
    unfold generate_square_wave
    rw [write_loop_mem (fun i => square_value amplitude (wave_phase sample_rate frequency i)),
      if_pos hi]
  have e3 : (generate_triangle_wave sample_rate frequency amplitude buffer samples).mem i
      = triangle_value amplitude (wave_phase sample_rate frequency i) := by
    unfold generate_triangle_wave
    rw [write_loop_mem (fun i => triangle_value amplitude (wave_phase sample_rate frequency i)),
      if_pos hi]
  rw [e1, e2, e3]
  exact ⟨hsaw, hsq, htri⟩

theorem wave_samples_within_amplitude_witness :
    ((0 : ℚ) ≤ 1 / 2 ∧ (0 : ℚ) ≤ 440 ∧ (0 : ℚ) < 44100 ∧ 3 < 4) ∧
      ((-(1 / 2) ≤ (generate_sawtooth_wave (44100 : ℚ) 440 (1 / 2) four_float_buffer 4).mem 3 ∧
        (generate_sawtooth_wave (44100 : ℚ) 440 (1 / 2) four_float_buffer 4).mem 3 ≤ 1 / 2) ∧
      (-(1 / 2) ≤ (generate_square_wave (44100 : ℚ) 440 (1 / 2) four_float_buffer 4).mem 3 ∧
        (generate_square_wave (44100 : ℚ) 440 (1 / 2) four_float_buffer 4).mem 3 ≤ 1 / 2) ∧
      (-(1 / 2) ≤ (generate_triangle_wave (44100 : ℚ) 440 (1 / 2) four_float_buffer 4).mem 3 ∧
        (generate_triangle_wave (44100 : ℚ) 440 (1 / 2) four_float_buffer 4).mem 3 ≤ 1 / 2)) :=
  ⟨⟨by norm_num, by norm_num, by norm_num, by norm_num⟩,
    wave_samples_within_amplitude ℚ 44100 440 (1 / 2) four_float_buffer 4 3 (by norm_num)
      (by norm_num) (by norm_num) (by norm_num)⟩

/-! ## The shape of the triangle -/

/-- C24, as stated, fails: with amplitude 1 the triangle value at phase 0 is -1 and at
phase 0.5 it is 1; neither is 0. -/
theorem triangle_not_zero_at_0_and_half :
    triangle_value (1 : ℚ) 0 = -1 ∧ triangle_value (1 : ℚ) (1 / 2) = 1 ∧
    triangle_value (1 : ℚ) 0 ≠ 0 ∧ triangle_value (1 : ℚ) (1 / 2) ≠ 0 := by
  have h0 : triangle_value (1 : ℚ) 0 = -1 := by norm_num [triangle_value]
  have h1 : triangle_value (1 : ℚ) (1 / 2) = 1 := by norm_num [triangle_value]
  refine ⟨h0, h1, ?_, ?_⟩
  · rw [h0]; norm_num
  · rw [h1]; norm_num

/-- C24, amended: the triangle waveform is continuous: the two branches agree at phase 0.5,
and the value approached as the phase tends to 1 is the value at phase 0 (for a phase `p`
in `[0.5, 1]` the second branch differs from the value at 0 by `4 * amplitude * (1 - p)`).
Its value at phase 0 is `-amplitude` and at phase 0.5 is `amplitude`; the zero crossings
are at phase 0.25 and 0.75. -/
theorem triangle_shape (F : Type) [LinearOrderedField F] (amplitude : F) :
    amplitude * (4 * (1 / 2) - 1) = amplitude * (3 - 4 * (1 / 2)) ∧
    amplitude * (3 - 4 * 1) = triangle_value amplitude 0 ∧
    (∀ p : F, 1 / 2 ≤ p →
      triangle_value amplitude p - triangle_value amplitude 0 = 4 * amplitude * (1 - p)) ∧
    triangle_value amplitude 0 = -amplitude ∧
    triangle_value amplitude (1 / 2) = amplitude ∧
    triangle_value amplitude (1 / 4) = 0 ∧
    triangle_value amplitude (3 / 4) = 0 := by
  have h0 : triangle_value amplitude 0 = -amplitude := by
    have h : (0 : F) < 1 / 2 := by norm_num
    simp only [triangle_value, if_pos h]
    ring
  have hhalf : triangle_value amplitude (1 / 2) = amplitude := by
    have h : ¬ ((1 / 2 : F) < 1 / 2) := lt_irrefl _
    simp only [triangle_value, if_neg h]
    ring
  refine ⟨by ring, by rw [h0]; ring, ?_, h0, hhalf, ?_, ?_⟩
  · intro p hp
    have h : ¬ (p < 1 / 2) := not_lt.mpr hp
    rw [h0]
    simp only [triangle_value, if_neg h]
    ring
  · have h : (1 / 4 : F) < 1 / 2 := by norm_num
    simp only [triangle_value, if_pos h]
    ring
  · have h : ¬ ((3 / 4 : F) < 1 / 2) := by norm_num
    simp only [triangle_value, if_neg h]
    ring

end RetroSaga
